import Mathlib

/-!
Verification of the pyatc simulation core.

This file gives a shallow embedding, in Lean 4, of the tick-driven
air-traffic-control simulation: runway resource arbitration
(atc/objects/runway_v2.py), the aircraft state machine and kinematics
(atc/objects/aircraft_v2.py), the pairwise conflict detector (atc/utils.py),
the quadtree spatial index (atc/ai/quadtree.py), the command parser
(atc/command_parser.py), the autonomous controller (atc/ai/controller.py)
and the per-tick pipeline of main.py.

Modelling conventions:
* Python floats are embedded as real numbers; Python ints as integers or
  naturals.  Python float percent-modulo with a positive modulus is `pymod`.
* Wall-clock reads (time.time()) become an explicit `now : ℝ` argument;
  random draws become explicit oracle arguments.
* Python object references are embedded by stable identity: an aircraft is
  identified by its callsign (the spec declares callsigns unique identities),
  a runway held by an aircraft is an index into the runway registry list.
* The optional per-type physics profile (PerformanceProfile) is loaded from
  JSON data files that ship outside the source tree; following the source
  default, the embedded aircraft run with the legacy kinematics
  (`_use_new_physics = False`) and the physics branch is omitted.
* Numeric constants that the source imports from `constants` but that are
  not present under the provided source tree are modelled from the spec
  and carry a doc comment saying so.
-/

namespace PyATC

/-! ## Constants (src/constants.py) -/

def WIDTH : ℚ := 1500
def HEIGHT : ℚ := 600
def NM_PER_PX : ℚ := 8 / 100
def SAFE_LAT_NM : ℚ := 3
def SAFE_VERT_FT : ℚ := 1000
def LANDING_HEADING_OFFSET_DEG : ℚ := 60
def LANDING_HEIGHT_OFFSET_FT : ℚ := 3000

/-- Modelled from the spec: runway status strings (status is one of
AVAILABLE, OCCUPIED, CLOSED); the string constants are imported from a
`constants` module not present under the source tree. -/
def RUNWAY_DEFAULT_STATUS : String := "AVAILABLE"

/-- Modelled from the spec: the OCCUPIED runway status string. -/
def RUNWAY_OCCUPIED_STATUS : String := "OCCUPIED"

/-- Modelled from the spec: the CLOSED runway status string. -/
def RUNWAY_CLOSED_STATUS : String := "CLOSED"

/-- Modelled from the spec: the fixed angular turn rate (degrees per
second) used by `turn_towards`; the numeric value is imported from a
`constants` module not present under the source tree.  Any positive value
exhibits the same behaviour; 3 deg/s is used here. -/
noncomputable def TURN_RATE_DEG_PER_SEC : ℝ := 3

/-- Modelled from the spec: the speed easing rate (knots per second). -/
def SPEED_CHANGE_RATE_KTS_PER_SEC : ℝ := 5

/-- Modelled from the spec: ground deceleration rate while landing (knots
per second). -/
def LANDING_DECEL_RATE_KTS_PER_SEC : ℝ := 8

/-- Modelled from the spec: altitude above which a departing aircraft
releases its runway and becomes AIRBORNE. -/
def TAKEOFF_RELEASE_ALT_FT : ℝ := 1000

/-- Modelled from the spec: alternative release threshold as a fraction of
the destination altitude (source name TAKEOFF_RELEASE_RATIO, renamed here). -/
noncomputable def TAKEOFF_RELEASE_FRACTION : ℝ := 1 / 2

/-- Modelled from the spec: touchdown altitude (ft) below which a landing
aircraft is considered on the ground. -/
def LANDING_TOUCHDOWN_ALT_FT : ℝ := 50

/-- Modelled from the spec: rollout is complete below this ground speed. -/
def LANDING_ROLLOUT_MIN_SPEED : ℝ := 40

/-- Modelled from the spec: rollout time cap (seconds after touchdown). -/
def LANDING_ROLLOUT_MAX_TIME : ℝ := 30

/-- Modelled from the spec: altitude assigned to aircraft spawned on a
runway. -/
def RUNWAY_SPAWN_ALT_FT : ℝ := 0

/-- Modelled from the spec: default climb/descent rate in feet per minute. -/
def DEFAULT_CLIMB_RATE_FPM : ℝ := 1800

/-- Modelled from the spec: expedited climb/descent rate (double). -/
def EXPEDITE_CLIMB_RATE_FPM : ℝ := 3600

/-- Modelled from the spec: minimum duration of the eased altitude
interpolation profile. -/
def ALTITUDE_INTERPOLATION_MIN_DURATION : ℝ := 5

/-- Modelled from the spec: warp factor of the sine-based S-curve easing. -/
def ALTITUDE_SMOOTHING_FACTOR : ℝ := 1

/-- Modelled from the spec: decay rate of the stabilisation oscillation. -/
noncomputable def ALTITUDE_STABILISE_DECAY : ℝ := 1 / 2

/-- Modelled from the spec: frequency of the stabilisation oscillation. -/
def ALTITUDE_STABILISE_FREQ : ℝ := 2

/-- Modelled from the spec: amplitude of the stabilisation oscillation. -/
def ALTITUDE_STABILISE_AMPLITUDE : ℝ := 50

/-- Modelled from the spec: decay threshold ending the stabilisation. -/
noncomputable def ALTITUDE_STABILISE_END_THRESHOLD : ℝ := 1 / 100

/-- Modelled from the spec: the turn/expedite qualifier tokens accepted
after a C instruction argument (L or R for headings, X or EX for
altitudes). -/
def CMD_TURN_TOKENS : List String := ["L", "R", "X", "EX"]

/-- Modelled from the spec: a takeoff instruction takes exactly 3 args. -/
def CMD_TAKEOFF_PARAMS_REQUIRED : Nat := 3

/-- Modelled from the spec: an altitude instruction value is multiplied by
1000 ft. -/
def ALTITUDE_STEP_FT : Int := 1000

/-- Modelled from the spec: per-aircraft autonomous decision period (s). -/
def AI_DECISION_PERIOD : ℝ := 5

/-- Modelled from the spec: fixed magnitude (degrees) of the autonomous
deconfliction turn; the numeric value is imported from a `constants`
module not present under the source tree.  30 degrees is used here; any
magnitude strictly between 0 and 90 exhibits the same behaviour. -/
def AI_DECONFLICT_TURN : ℝ := 30

/-- Modelled from the spec: arming distance (nm) for the approach sequence. -/
def AI_APPROACH_ARM_DIST_NM : ℝ := 15

/-- Modelled from the spec: maximum bearing difference for an aligned
candidate runway. -/
def AI_ALIGN_ALLOWED_DIFF_DEG : ℝ := 45

/-- Modelled from the spec: fixed approach speed commanded by the AI. -/
def AI_LANDING_SPEED : Nat := 160

/-! ## Python numeric helpers -/

/-- Python float percent-modulo for a positive modulus:
`a % n = a - n * floor(a / n)`, always in `[0, n)`. -/
noncomputable def pymod (a n : ℝ) : ℝ := a - n * ⌊a / n⌋

/-- Python `abs`-of-shortest-difference on the circle: the circular
distance between two headings in degrees. -/
noncomputable def circDist (a b : ℝ) : ℝ := min (pymod (a - b) 360) (pymod (b - a) 360)

/-- `normalize_hdg` (atc/utils.py line 36): `h % 360`. -/
noncomputable def normalize_hdg (h : ℝ) : ℝ := pymod h 360

/-- `shortest_turn_dir` (atc/utils.py line 37):
`1 if (b - a + 360) % 360 <= 180 else -1`. -/
noncomputable def shortest_turn_dir (a b : ℝ) : ℝ :=
  if pymod (b - a + 360) 360 ≤ 180 then 1 else -1

/-- `nm_to_px` (atc/utils.py line 33): `nm / NM_PER_PX`. -/
noncomputable def nm_to_px (nm : ℝ) : ℝ := nm / (NM_PER_PX : ℝ)

/-- `px_to_nm` (atc/utils.py line 34): `px * NM_PER_PX`. -/
noncomputable def px_to_nm (px : ℝ) : ℝ := px * (NM_PER_PX : ℝ)

/-- `heading_to_vec` (atc/utils.py line 35):
`(sin(radians(hdg)), -cos(radians(hdg)))`. -/
noncomputable def heading_to_vec (hdg : ℝ) : ℝ × ℝ :=
  (Real.sin (hdg * Real.pi / 180), -Real.cos (hdg * Real.pi / 180))

/-- Python `math.atan2(y, x)`. -/
noncomputable def pyAtan2 (y x : ℝ) : ℝ :=
  if 0 < x then Real.arctan (y / x)
  else if x < 0 ∧ 0 ≤ y then Real.arctan (y / x) + Real.pi
  else if x < 0 ∧ y < 0 then Real.arctan (y / x) - Real.pi
  else if x = 0 ∧ 0 < y then Real.pi / 2
  else if x = 0 ∧ y < 0 then -(Real.pi / 2)
  else 0

/-- Python `str.isdigit()`: nonempty and all characters decimal digits. -/
def pyIsDigit (s : String) : Bool := !s.data.isEmpty && s.data.all Char.isDigit

/-- Value of a list of decimal digit characters (most significant first). -/
def digitsVal : List Char → Nat → Nat
  | [], acc => acc
  | c :: cs, acc => digitsVal cs (acc * 10 + (c.toNat - 48))

/-- Python `int(s)` on the digit strings fed to it by the validated
command paths. -/
def pyInt (s : String) : Int := (digitsVal s.data 0 : Int)

/-- Python `int(x)` on a nonnegative float: truncation toward zero. -/
noncomputable def pyTrunc (x : ℝ) : Int := ⌊x⌋

/-- Digit character for a value below 10. -/
def digitChar (n : Nat) : Char := Char.ofNat (48 + n)

/-- Python `str(n)` for a natural number below 1000 (all uses here are). -/
def natToStr (n : Nat) : String :=
  if n < 10 then String.mk [digitChar n]
  else if n < 100 then String.mk [digitChar (n / 10), digitChar (n % 10)]
  else String.mk [digitChar (n / 100), digitChar (n / 10 % 10), digitChar (n % 10)]

/-- Helper for splitting a character list at commas. -/
def splitCommaAux : List Char → List Char → List String
  | [], acc => [String.mk acc.reverse]
  | c :: cs, acc =>
    if c = ',' then String.mk acc.reverse :: splitCommaAux cs []
    else splitCommaAux cs (c :: acc)

/-- Python `s.split(",")`. -/
def pySplitComma (s : String) : List String := splitCommaAux s.data []

/-- Python f-string `{n:03d}` for the nonnegative headings it is applied
to: decimal digits left-padded with zeros to width 3. -/
def pad3 (n : Int) : String :=
  let m := n.toNat
  if m < 10 then String.mk ['0', '0', digitChar m]
  else if m < 100 then String.mk ['0', digitChar (m / 10), digitChar (m % 10)]
  else natToStr m

/-! ## Facts about `pymod` -/

theorem pymod_eq_fract (a : ℝ) {n : ℝ} (hn : n ≠ 0) :
    pymod a n = n * Int.fract (a / n) := by
  unfold pymod Int.fract
  field_simp

theorem pymod_nonneg (a : ℝ) {n : ℝ} (hn : 0 < n) : 0 ≤ pymod a n := by
  rw [pymod_eq_fract a hn.ne']
  exact mul_nonneg hn.le (Int.fract_nonneg _)

theorem pymod_lt (a : ℝ) {n : ℝ} (hn : 0 < n) : pymod a n < n := by
  rw [pymod_eq_fract a hn.ne']
  calc n * Int.fract (a / n) < n * 1 :=
        (mul_lt_mul_left hn).2 (Int.fract_lt_one _)
    _ = n := mul_one n

/-- Adding an integer multiple of the modulus does not change `pymod`. -/
theorem pymod_add_int_mul (a : ℝ) {n : ℝ} (hn : n ≠ 0) (k : ℤ) :
    pymod (a + n * k) n = pymod a n := by
  rw [pymod_eq_fract _ hn, pymod_eq_fract _ hn]
  congr 1
  have : (a + n * k) / n = a / n + k := by field_simp; ring
  rw [this, Int.fract_add_int]

theorem pymod_eq_self {a n : ℝ} (h0 : 0 ≤ a) (h1 : a < n) : pymod a n = a := by
  have hn : 0 < n := lt_of_le_of_lt h0 h1
  have hf : ⌊a / n⌋ = 0 :=
    Int.floor_eq_zero_iff.2 ⟨by positivity, (div_lt_one hn).2 h1⟩
  unfold pymod
  rw [hf]
  simp

theorem pymod_le_self {a n : ℝ} (ha : 0 ≤ a) (hn : 0 < n) : pymod a n ≤ a := by
  unfold pymod
  have h0 : (0 : ℤ) ≤ ⌊a / n⌋ := Int.floor_nonneg.2 (by positivity)
  have : (0 : ℝ) ≤ n * ⌊a / n⌋ := by
    apply mul_nonneg hn.le
    exact_mod_cast h0
  linarith

/-- Reducing the left summand first does not change the result. -/
theorem pymod_sub_left (a b : ℝ) {n : ℝ} (hn : n ≠ 0) :
    pymod (pymod a n - b) n = pymod (a - b) n := by
  have h : pymod a n - b = (a - b) + n * ((-⌊a / n⌋ : ℤ) : ℝ) := by
    unfold pymod; push_cast [Int.cast_neg]; ring
  rw [h, pymod_add_int_mul _ hn]

/-- Reducing the subtrahend first does not change the result. -/
theorem pymod_sub_right (a b : ℝ) {n : ℝ} (hn : n ≠ 0) :
    pymod (a - pymod b n) n = pymod (a - b) n := by
  have h : a - pymod b n = (a - b) + n * ((⌊b / n⌋ : ℤ) : ℝ) := by
    unfold pymod; ring
  rw [h, pymod_add_int_mul _ hn]

theorem pymod_add_left (a b : ℝ) {n : ℝ} (hn : n ≠ 0) :
    pymod (pymod a n + b) n = pymod (a + b) n := by
  have h : pymod a n + b = (a + b) + n * ((-⌊a / n⌋ : ℤ) : ℝ) := by
    unfold pymod; push_cast; ring
  rw [h, pymod_add_int_mul _ hn]

/-- Circular distance only depends on the difference. -/
theorem circDist_shift (a b c : ℝ) : circDist (a + c) (b + c) = circDist a b := by
  unfold circDist
  congr 2 <;> ring_nf

theorem circDist_nonneg (a b : ℝ) : 0 ≤ circDist a b :=
  le_min (pymod_nonneg _ (by norm_num)) (pymod_nonneg _ (by norm_num))

/-! ## Data model: Command, Runway, Airport (atc/objects) -/

/-- `Command` (atc/objects/command.py): type tag, optional value, optional
extra qualifier. -/
structure Command where
  type : String
  value : Option String := none
  extra : Option String := none
deriving DecidableEq, Repr

/-- `Runway` (atc/objects/runway_v2.py lines 75-103).  The held aircraft
reference is embedded as the holder's callsign; the drawing geometry
fields (start/end) are omitted as rendering-only. -/
structure Runway where
  name : String
  x : Int := 0
  y : Int := 0
  bearing : Int := 90
  length_nm : ℚ := 5 / 2
  active_aircraft : Option String := none
  status : String := RUNWAY_DEFAULT_STATUS
  last_used : ℝ

/-- `Runway.is_available` (runway_v2.py lines 92-93):
status is AVAILABLE and no active aircraft. -/
def Runway.is_available (r : Runway) : Bool :=
  r.status == RUNWAY_DEFAULT_STATUS && r.active_aircraft.isNone

/-- `Runway.occupy` (runway_v2.py lines 95-98): unconditionally records
the aircraft, sets OCCUPIED and stamps the time. -/
def Runway.occupy (r : Runway) (callsign : String) (now : ℝ) : Runway :=
  { r with active_aircraft := some callsign,
           status := RUNWAY_OCCUPIED_STATUS,
           last_used := now }

/-- `Runway.release` (runway_v2.py lines 100-103): unconditionally clears
the aircraft, sets AVAILABLE and stamps the time. -/
def Runway.release (r : Runway) (now : ℝ) : Runway :=
  { r with active_aircraft := none,
           status := RUNWAY_DEFAULT_STATUS,
           last_used := now }

/-- Release the runway at index `i` of the registry (the embedding of a
`self.current_runway.release()` call through the aliased registry list). -/
def releaseAt (runways : List Runway) (i : Nat) (now : ℝ) : List Runway :=
  match runways.get? i with
  | some r => runways.set i (r.release now)
  | none => runways

/-- Whether the runway at index `i` currently records `cs` as holder
(the `self.current_runway.active_aircraft == self` identity check). -/
def holderIs (runways : List Runway) (i : Nat) (cs : String) : Bool :=
  match runways.get? i with
  | some r => r.active_aircraft == some cs
  | none => false

/-- `Airport.register_arrival` (atc/objects/airport.py lines 15-17):
append-only, deduplicated set of arrived aircraft, by identity. -/
def register_arrival (arrivals : List String) (cs : String) : List String :=
  if arrivals.contains cs then arrivals else arrivals ++ [cs]

/-- A named navigation fix with its (layout-scaled) position, as produced
by `load_fixes` (atc/utils.py lines 74-92). -/
structure Fix where
  name : String
  x : Int
  y : Int
deriving DecidableEq, Repr

/-! ## Aircraft (atc/objects/aircraft_v2.py) -/

/-- `Aircraft` (aircraft_v2.py lines 83-121).  Kinematic floats are reals;
`current_runway` is an index into the runway registry list; the rendering
history and physics-profile fields are omitted (no profile is loaded, so
`_use_new_physics` is False throughout, as in the source default path). -/
structure Aircraft where
  callsign : String
  x : ℝ := 0
  y : ℝ := 0
  hdg : ℝ := 0
  spd : ℝ := 0
  alt : ℝ := 0
  dest_alt : Int := 0
  ai_controlled : Bool := false
  dest_hdg : Option ℝ := none
  state : String := "AIRBORNE"
  turn_dir_forced : Option String := none
  climb_rate : ℝ := DEFAULT_CLIMB_RATE_FPM
  expedite : Bool := false
  dest_spd : Option Int := none
  msg : String := ""
  command_queue : List Command := []
  holding : Bool := false
  hold_center : Option (ℝ × ℝ) := none
  current_runway : Option Nat := none
  touchdown_time : Option ℝ := none
  pending_command_timer : ℝ := 0
  on_runway : Bool := false
  alt_start : ℝ := 0
  alt_target : ℝ := 0
  alt_start_time : Option ℝ := none
  alt_duration : ℝ := 0
  alt_stabilise_start : Option ℝ := none
  ai_next_decision : ℝ := 0

/-- `Aircraft.set_altitude_target` (aircraft_v2.py lines 169-177): records
the profile start/target/start-time and a duration proportional to the
altitude change, and clears the stabilisation phase. -/
noncomputable def Aircraft.set_altitude_target (a : Aircraft) (target_alt : Int)
    (now : ℝ) : Aircraft :=
  let delta := |(target_alt : ℝ) - a.alt|
  { a with alt_start := a.alt,
           alt_target := (target_alt : ℝ),
           alt_start_time := some now,
           alt_duration :=
             if 0 < delta then
               max ALTITUDE_INTERPOLATION_MIN_DURATION (delta / 1000 * (1 / 2))
             else 1,
           alt_stabilise_start := none }

/-- `get_heading_to_fix` (atc/utils.py lines 52-56). -/
noncomputable def get_heading_to_fix (a : Aircraft) (f : Fix) : ℝ :=
  let dx := (f.x : ℝ) - a.x
  let dy := (f.y : ℝ) - a.y
  normalize_hdg (pyAtan2 dx (-dy) * 180 / Real.pi)

/-- `distance_to_fix` (atc/utils.py lines 58-61). -/
noncomputable def distance_to_fix (a : Aircraft) (f : Fix) : ℝ :=
  px_to_nm (Real.sqrt (((f.x : ℝ) - a.x) ^ 2 + ((f.y : ℝ) - a.y) ^ 2))

/-- The turn direction chosen by `turn_towards` (aircraft_v2.py lines
431-435): the forced side when one is set, otherwise the shorter arc. -/
noncomputable def turnSign (forced : Option String) (cur tgt : ℝ) : ℝ :=
  if forced = some "R" then 1
  else if forced = some "L" then -1
  else shortest_turn_dir cur tgt

/-- `Aircraft.turn_towards` (aircraft_v2.py lines 428-439). -/
noncomputable def Aircraft.turn_towards (a : Aircraft) (tgt dt : ℝ) : Aircraft :=
  let cur := normalize_hdg a.hdg
  let t := normalize_hdg tgt
  let sign := turnSign a.turn_dir_forced cur t
  let diff := |pymod (t - cur + 360) 360|
  if diff < TURN_RATE_DEG_PER_SEC * dt then { a with hdg := t }
  else { a with hdg := normalize_hdg (a.hdg + sign * TURN_RATE_DEG_PER_SEC * dt) }

/-- `Aircraft.execute_command` (aircraft_v2.py lines 179-262).  Wall-clock
reads become `now`; the runway registry threads through because the
TAKEOFF/LAND branches occupy a runway.  Returns the mutated aircraft, the
mutated registry, and the completion flag (every branch returns True). -/
noncomputable def Aircraft.execute_command (a : Aircraft) (cmd : Command)
    (fixes : List Fix) (runways : List Runway) (now : ℝ) :
    Aircraft × List Runway × Bool :=
  let v := cmd.value.getD ""
  if cmd.type = "ALT" then
    if pyIsDigit v then
      ({ a with dest_alt := pyInt v * 1000,
                expedite := cmd.extra == some "X" || cmd.extra == some "EX" },
       runways, true)
    else
      ({ a with msg := a.callsign ++ ": invalid altitude '" ++ v ++ "'" }, runways, true)
  else if cmd.type = "HDG" then
    if pyIsDigit v then
      ({ a with dest_hdg := some ((pyInt v : ℝ)), turn_dir_forced := cmd.extra },
       runways, true)
    else
      ({ a with msg := a.callsign ++ ": invalid heading '" ++ v ++ "'" }, runways, true)
  else if cmd.type = "SPD" then
    if pyIsDigit v then
      ({ a with dest_spd := some (pyInt v) }, runways, true)
    else
      ({ a with msg := a.callsign ++ ": invalid speed '" ++ v ++ "'" }, runways, true)
  else if cmd.type = "HOLD" then
    ({ a with holding := true, hold_center := some (a.x, a.y),
              msg := a.callsign ++ " HOLDING" }, runways, true)
  else if cmd.type = "NAV" then
    match fixes.find? (fun f => f.name == v) with
    | none => ({ a with msg := "UNKNOWN FIX " ++ v }, runways, true)
    | some f =>
      let hdg := get_heading_to_fix a f
      let a1 := { a with dest_hdg := some hdg,
                         msg := a.callsign ++ " CLEARED TO " ++ v }
      if distance_to_fix a f < 12 then
        ({ a1 with msg := a.callsign ++ " ARRIVED " ++ v }, runways, true)
      else (a1, runways, true)
  else if cmd.type = "TAKEOFF" then
    match pySplitComma v with
    | [runway_name, spd, alt] =>
      match runways.findIdx? (fun r => r.name == runway_name) with
      | none => ({ a with msg := "Runway " ++ runway_name ++ " not found" }, runways, true)
      | some i =>
        match runways.get? i with
        | none => (a, runways, true)  -- unreachable: findIdx? returned a valid index
        | some rw =>
          if !rw.is_available then
            ({ a with msg := runway_name ++ " occupied" }, runways, true)
          else
            ({ a with current_runway := some i,
                      state := "TAKEOFF",
                      dest_spd := some (pyInt spd),
                      dest_alt := pyInt alt,
                      dest_hdg := some ((rw.bearing : ℝ)),
                      msg := a.callsign ++ " rolling " ++ rw.name },
             runways.set i (rw.occupy a.callsign now), true)
    | _ => (a, runways, true)  -- malformed value: unreachable from the validated parser path
  else if cmd.type = "LAND" then
    match runways.findIdx? (fun r => r.name == v) with
    | none => ({ a with msg := "Runway " ++ v ++ " not found" }, runways, true)
    | some i =>
      match runways.get? i with
      | none => (a, runways, true)  -- unreachable: findIdx? returned a valid index
      | some rw =>
        if !rw.is_available then
          ({ a with msg := rw.name ++ " occupied" }, runways, true)
        else
          let a1 := { a with current_runway := some i,
                             state := "LANDING",
                             dest_hdg := some ((rw.bearing : ℝ)),
                             dest_spd := some 160 }
          ({ a1.set_altitude_target 0 now with
               msg := a.callsign ++ " landing " ++ rw.name },
           runways.set i (rw.occupy a.callsign now), true)
  else (a, runways, true)

/-! ### The per-tick aircraft update (aircraft_v2.py lines 264-366),
decomposed into its source paragraphs. -/

/-- Command-queue block (lines 265-278).  The boolean is the early-return
flag: True exactly when the pending timer was decremented and stayed
positive, in which case the whole update returns at once. -/
noncomputable def updCommands (a : Aircraft) (fixes : List Fix)
    (runways : List Runway) (dt now delayDraw : ℝ) :
    (Aircraft × List Runway) × Bool :=
  match a.command_queue with
  | [] => ((a, runways), false)
  | current :: _ =>
    if a.pending_command_timer ≤ 0 then
      let a1 := { a with pending_command_timer := delayDraw }
      let r := a1.execute_command current fixes runways now
      if r.2.2 then
        (({ r.1 with command_queue := r.1.command_queue.tail,
                     pending_command_timer := 0 }, r.2.1), false)
      else ((r.1, r.2.1), false)
    else
      let t2 := a.pending_command_timer - dt
      if 0 < t2 then (({ a with pending_command_timer := t2 }, runways), true)
      else
        let a1 := { a with pending_command_timer := t2 }
        let r := a1.execute_command current fixes runways now
        if r.2.2 then
          (({ r.1 with command_queue := r.1.command_queue.tail,
                       pending_command_timer := 0 }, r.2.1), false)
        else ((r.1, r.2.1), false)

/-- Altitude block (lines 285-310): either the eased interpolation profile
with its decaying stabilisation oscillation, or the constant-rate
climb/descent toward `dest_alt`. -/
noncomputable def updAltitude (a : Aircraft) (dt now : ℝ) : Aircraft :=
  match a.alt_start_time with
  | some st =>
    let dur := max a.alt_duration ALTITUDE_INTERPOLATION_MIN_DURATION
    let t := min ((now - st) / dur) 1
    let p := ALTITUDE_SMOOTHING_FACTOR
    let t_adj := (Real.sin ((t - 1 / 2) * Real.pi * p) /
                  Real.sin (Real.pi * (1 / 2) * p) + 1) / 2
    let factor := 3 * t_adj ^ 2 - 2 * t_adj ^ 3
    let a1 := { a with alt_duration := dur,
                       alt := a.alt_start + (a.alt_target - a.alt_start) * factor }
    if 1 ≤ t then
      let stabStart := a1.alt_stabilise_start.getD now
      let elapsed := now - stabStart
      let decay := Real.exp (-(elapsed * ALTITUDE_STABILISE_DECAY))
      let offset := Real.sin (elapsed * ALTITUDE_STABILISE_FREQ) *
                    ALTITUDE_STABILISE_AMPLITUDE * decay
      let a2 := { a1 with alt_stabilise_start := some stabStart,
                          alt := a1.alt_target + offset }
      if decay < ALTITUDE_STABILISE_END_THRESHOLD then
        { a2 with alt := a2.alt_target,
                  alt_start_time := none,
                  alt_stabilise_start := none }
      else a2
    else a1
  | none =>
    let rate := a.climb_rate * (if a.expedite then 2 else 1)
    if a.alt < (a.dest_alt : ℝ) then
      { a with alt := min ((a.dest_alt : ℝ)) (a.alt + rate * dt / 60) }
    else if (a.dest_alt : ℝ) < a.alt then
      { a with alt := max ((a.dest_alt : ℝ)) (a.alt - rate * dt / 60) }
    else a

/-- Speed easing block (lines 315-317), legacy kinematics path. -/
noncomputable def updSpeed (a : Aircraft) (dt : ℝ) : Aircraft :=
  match a.dest_spd with
  | some ds =>
    let diff := (ds : ℝ) - a.spd
    { a with spd := a.spd + max (min diff (SPEED_CHANGE_RATE_KTS_PER_SEC * dt))
                              (-(SPEED_CHANGE_RATE_KTS_PER_SEC * dt)) }
  | none => a

/-- Landing ground-deceleration block (lines 322-323). -/
noncomputable def updDecel (a : Aircraft) (dt : ℝ) : Aircraft :=
  if (a.state = "LANDING" ∨ a.state = "LANDED") ∧ a.alt ≤ 20 then
    { a with spd := max 0 (a.spd - LANDING_DECEL_RATE_KTS_PER_SEC * dt) }
  else a

/-- Position integration block (lines 325-329). -/
noncomputable def updPosition (a : Aircraft) (dt : ℝ) : Aircraft :=
  let d := heading_to_vec a.hdg
  let pxps := nm_to_px (a.spd / 3600)
  { a with x := a.x + d.1 * pxps * dt, y := a.y + d.2 * pxps * dt }

/-- Runway state-transition block (lines 331-355): the takeoff-release
path and the landing-rollout path.  Note that only the landing path
performs the `active_aircraft == self` identity check before releasing. -/
noncomputable def updRunway (a : Aircraft) (runways : List Runway)
    (arrivals : List String) (now : ℝ) : Aircraft × List Runway × List String :=
  match a.current_runway with
  | none => (a, runways, arrivals)
  | some i =>
    if a.state = "TAKEOFF" then
      if TAKEOFF_RELEASE_ALT_FT ≤ a.alt ∨
         (0 < (a.dest_alt : ℝ) ∧ TAKEOFF_RELEASE_FRACTION * (a.dest_alt : ℝ) < a.alt) then
        ({ a with current_runway := none, state := "AIRBORNE" },
         releaseAt runways i now, arrivals)
      else (a, runways, arrivals)
    else if a.state = "LANDING" ∧ a.alt ≤ LANDING_TOUCHDOWN_ALT_FT then
      let arrivals1 := register_arrival arrivals a.callsign
      let tt := a.touchdown_time.getD now
      let a1 := { a with touchdown_time := some tt }
      if a1.spd < LANDING_ROLLOUT_MIN_SPEED ∨ LANDING_ROLLOUT_MAX_TIME < now - tt then
        let runways1 := if holderIs runways i a.callsign then releaseAt runways i now
                        else runways
        ({ a1 with state := "LANDED", current_runway := none }, runways1, arrivals1)
      else (a1, runways, arrivals1)
    else (a, runways, arrivals)

/-- `Aircraft.update` (aircraft_v2.py lines 264-366): the per-tick entity
update, with the wall clock and the command-delay random draw passed in
and the runway registry and airport arrival set threaded through. -/
noncomputable def Aircraft.update (a : Aircraft) (dt now delayDraw : ℝ)
    (fixes : List Fix) (runways : List Runway) (arrivals : List String) :
    Aircraft × List Runway × List String :=
  let c := updCommands a fixes runways dt now delayDraw
  if c.2 then (c.1.1, c.1.2, arrivals)
  else
    let a1 := c.1.1
    let runways1 := c.1.2
    if a1.on_runway ∧ (a1.state = "TAKEOFF_PENDING" ∨ a1.state = "ON_RUNWAY") then
      ({ a1 with alt := RUNWAY_SPAWN_ALT_FT, spd := 0 }, runways1, arrivals)
    else
      let a2 := updAltitude a1 dt now
      let a3 := match a2.dest_hdg with
                | some t => a2.turn_towards t dt
                | none => a2
      let a4 := updSpeed a3 dt
      let a5 := updDecel a4 dt
      let a6 := updPosition a5 dt
      updRunway a6 runways1 arrivals now

/-! ## Phraseology (atc/utils.py lines 148-174) -/

/-- Digit-to-word table of `convert_to_phraseology`. -/
def numword (c : Char) : String :=
  if c = '0' then "zero" else if c = '1' then "one" else if c = '2' then "two"
  else if c = '3' then "three" else if c = '4' then "four"
  else if c = '5' then "five" else if c = '6' then "six"
  else if c = '7' then "seven" else if c = '8' then "eight"
  else if c = '9' then "nine" else ""

/-- Speak every digit of a decimal string. -/
def digitWords (s : String) : String :=
  String.intercalate " " (s.data.map numword)

/-- `convert_to_phraseology` (atc/utils.py lines 148-174).  The parser only
feeds it altitudes that are multiples of 1000 ft, for which the source's
`round(altitude / 100)` is the exact integer quotient used here. -/
def convert_to_phraseology (value : Int) (ty : String) : String :=
  if ty = "altitude" then
    if 18000 ≤ value then
      "flight level " ++ digitWords (natToStr ((value / 100).toNat))
    else
      digitWords (natToStr ((value / 1000).toNat)) ++ " thousand"
  else if ty = "heading" then digitWords (pad3 value)
  else if ty = "speed" then digitWords (natToStr value.toNat) ++ " knots"
  else natToStr value.toNat

/-! ## Command parser (atc/command_parser.py) -/

/-- Modelled from the spec: the operator-facing message strings are
imported from a `constants` module not present under the source tree.
Their exact wording is immaterial to the verified properties; the
"occupied" wording follows the spec scenario. -/
def MSG_TAKEOFF_MISSING_PARAMS : String := "Takeoff requires runway, speed, altitude"

/-- Modelled from the spec: invalid numeric takeoff parameters message. -/
def MSG_INVALID_TAKEOFF : String := "Invalid takeoff parameters"

/-- Modelled from the spec: unknown runway message. -/
def MSG_RUNWAY_NOT_FOUND (rwy : String) : String := "Runway " ++ rwy ++ " not found"

/-- Modelled from the spec: occupied runway rejection message. -/
def MSG_RUNWAY_OCCUPIED (rwy : String) : String := rwy ++ " occupied"

/-- Modelled from the spec: takeoff clearance acknowledgment. -/
def MSG_TAKEOFF_CLEARANCE (rwy alt spd : String) : String :=
  "runway " ++ rwy ++ " cleared for takeoff, climb " ++ alt ++ ", speed " ++ spd

/-- Modelled from the spec: landing with no runway named. -/
def MSG_LANDING_MISSING_RUNWAY : String := "Landing requires a runway"

/-- Modelled from the spec: misaligned landing rejection message. -/
def MSG_NOT_ALIGNED (rwy : String) : String := "not aligned with " ++ rwy

/-- Modelled from the spec: too-high landing rejection message. -/
def MSG_TOO_HIGH : String := "too high to land"

/-- Modelled from the spec: landing clearance acknowledgment. -/
def MSG_LAND_CLEARANCE (rwy : String) : String := "cleared to land runway " ++ rwy

/-- Modelled from the spec: hold-at-present-position acknowledgment. -/
def MSG_HOLD_POS : String := "hold at present position"

/-- Modelled from the spec: hold-at-fix acknowledgment. -/
def MSG_HOLD_FIX (fix : String) : String := "hold at " ++ fix

/-- `_angle_diff` (command_parser.py lines 26-28): the smallest angular
difference `min((a - b) % 360, (b - a) % 360)`. -/
noncomputable def angle_diff (a b : ℝ) : ℝ :=
  min (pymod (a - b) 360) (pymod (b - a) 360)

/-- `CommandParser._handle_altitude_command` (command_parser.py lines
153-176): builds the ALT command and its acknowledgment, and — at parse
time — starts the eased altitude profile and assigns `dest_alt` on the
aircraft. -/
noncomputable def handleAltitudeCommand (a : Aircraft) (arg : String)
    (extra : Option String) (now : ℝ) : (List Command × String) × Aircraft :=
  let target_alt := pyInt arg * ALTITUDE_STEP_FT
  let cmd : Command := ⟨"ALT", some arg, extra⟩
  let ex := if extra == some "X" || extra == some "EX" then " expedite" else ""
  let direction :=
    if a.alt < (target_alt : ℝ) then "climb and maintain"
    else if (target_alt : ℝ) < a.alt then "descend and maintain"
    else "maintain"
  let ack := direction ++ " " ++ convert_to_phraseology target_alt "altitude" ++ ex
  -- the real Aircraft has both `alt` and `set_altitude_target`, so the
  -- hasattr guards of the source are taken
  (([cmd], ack), { a.set_altitude_target target_alt now with dest_alt := target_alt })

/-- `CommandParser._handle_takeoff` (command_parser.py lines 178-194), in
the case where the three parameter tokens are present. -/
noncomputable def handleTakeoff (rname spd alt : String) (runways : List Runway) :
    String × List Command :=
  if !(pyIsDigit spd) || !(pyIsDigit alt) then (MSG_INVALID_TAKEOFF, [])
  else
    match runways.find? (fun r => r.name == rname) with
    | none => (MSG_RUNWAY_NOT_FOUND rname, [])
    | some rw =>
      if !rw.is_available then (MSG_RUNWAY_OCCUPIED rname, [])
      else
        (MSG_TAKEOFF_CLEARANCE rname alt spd,
         [⟨"TAKEOFF", some (rname ++ "," ++ spd ++ "," ++ alt), none⟩])

/-- `CommandParser._handle_landing` (command_parser.py lines 196-215), in
the case where the runway token is present. -/
noncomputable def handleLanding (rname : String) (a : Aircraft)
    (runways : List Runway) : String × List Command :=
  match runways.find? (fun r => r.name == rname) with
  | none => (MSG_RUNWAY_NOT_FOUND rname, [])
  | some rw =>
    if !rw.is_available then (MSG_RUNWAY_OCCUPIED rname, [])
    else if (LANDING_HEADING_OFFSET_DEG : ℝ) < angle_diff a.hdg (rw.bearing : ℝ) then
      (MSG_NOT_ALIGNED rname, [])
    else if (LANDING_HEIGHT_OFFSET_FT : ℝ) < a.alt then (MSG_TOO_HIGH, [])
    else (MSG_LAND_CLEARANCE rname, [⟨"LAND", some rname, none⟩])

/-- `CommandParser._parse_segment` (command_parser.py lines 77-151): the
token loop, embedded as list recursion carrying the accumulated commands,
acknowledgments and the (parse-time mutated) aircraft.  Note the altitude
branch (line 100) rebinds the whole accumulated command list to the pair
returned by `_handle_altitude_command`, discarding every command parsed
earlier in the segment. -/
noncomputable def parseSegAux (runways : List Runway) (now : ℝ) :
    List String → List Command → List String → Aircraft →
    List Command × List String × Aircraft
  | [], cmds, acks, a => (cmds, acks, a)
  | ["C"], cmds, acks, a => (cmds, acks, a)
  | "C" :: arg :: e :: rest3, cmds, acks, a =>
    if CMD_TURN_TOKENS.contains e then
      if pyIsDigit arg && arg.length == 3 then
        let turn := if e = "L" then "left " else if e = "R" then "right " else ""
        parseSegAux runways now rest3 (cmds ++ [⟨"HDG", some arg, some e⟩])
          (acks ++ ["turn " ++ turn ++ "heading " ++
                    convert_to_phraseology (pyInt arg) "heading"]) a
      else if pyIsDigit arg then
        let r := handleAltitudeCommand a arg (some e) now
        parseSegAux runways now rest3 r.1.1 (acks ++ [r.1.2]) r.2
      else
        parseSegAux runways now rest3 (cmds ++ [⟨"NAV", some arg, some e⟩])
          (acks ++ ["cleared direct " ++ arg]) a
    else
      if pyIsDigit arg && arg.length == 3 then
        parseSegAux runways now (e :: rest3) (cmds ++ [⟨"HDG", some arg, none⟩])
          (acks ++ ["turn heading " ++ convert_to_phraseology (pyInt arg) "heading"]) a
      else if pyIsDigit arg then
        let r := handleAltitudeCommand a arg none now
        parseSegAux runways now (e :: rest3) r.1.1 (acks ++ [r.1.2]) r.2
      else
        parseSegAux runways now (e :: rest3) (cmds ++ [⟨"NAV", some arg, none⟩])
          (acks ++ ["cleared direct " ++ arg]) a
  | ["C", arg], cmds, acks, a =>
    if pyIsDigit arg && arg.length == 3 then
      (cmds ++ [⟨"HDG", some arg, none⟩],
       acks ++ ["turn heading " ++ convert_to_phraseology (pyInt arg) "heading"], a)
    else if pyIsDigit arg then
      let r := handleAltitudeCommand a arg none now
      (r.1.1, acks ++ [r.1.2], r.2)
    else
      (cmds ++ [⟨"NAV", some arg, none⟩], acks ++ ["cleared direct " ++ arg], a)
  | "S" :: spd :: rest2, cmds, acks, a =>
    parseSegAux runways now rest2 (cmds ++ [⟨"SPD", some spd, none⟩])
      (acks ++ ["speed " ++ convert_to_phraseology (pyInt spd) "speed"]) a
  | ["S"], cmds, acks, a => (cmds, acks, a)
  | "H" :: fix :: rest2, cmds, acks, a =>
    parseSegAux runways now rest2 (cmds ++ [⟨"HOLD", some fix, none⟩])
      (acks ++ [MSG_HOLD_FIX fix]) a
  | ["H"], cmds, acks, a =>
    (cmds ++ [⟨"HOLD", none, none⟩], acks ++ [MSG_HOLD_POS], a)
  | "T" :: rname :: spd :: alt :: rest2, cmds, acks, a =>
    let r := handleTakeoff rname spd alt runways
    parseSegAux runways now rest2 (cmds ++ r.2) (acks ++ [r.1]) a
  | "T" :: rest, cmds, acks, a =>
    parseSegAux runways now rest cmds (acks ++ [MSG_TAKEOFF_MISSING_PARAMS]) a
  | "L" :: rname :: rest2, cmds, acks, a =>
    let r := handleLanding rname a runways
    parseSegAux runways now rest2 (cmds ++ r.2) (acks ++ [r.1]) a
  | ["L"], cmds, acks, a =>
    (cmds, acks ++ [MSG_LANDING_MISSING_RUNWAY], a)
  | "AI" :: nxt :: rest2, cmds, acks, a =>
    if nxt = "ON" ∨ nxt = "OFF" ∨ nxt = "1" then
      let a1 := { a with ai_controlled := nxt == "ON" || nxt == "1" }
      parseSegAux runways now rest2 cmds
        (acks ++ ["AI " ++ (if a1.ai_controlled then "enabled" else "disabled")]) a1
    else
      let a1 := { a with ai_controlled := !a.ai_controlled }
      parseSegAux runways now (nxt :: rest2) cmds
        (acks ++ ["AI " ++ (if a1.ai_controlled then "enabled" else "disabled")]) a1
  | ["AI"], cmds, acks, a =>
    let a1 := { a with ai_controlled := !a.ai_controlled }
    (cmds, acks ++ ["AI " ++ (if a1.ai_controlled then "enabled" else "disabled")], a1)
  | _ :: rest, cmds, acks, a => parseSegAux runways now rest cmds acks a

/-- `CommandParser._parse_segment` entry point: empty accumulators. -/
noncomputable def parseSegment (runways : List Runway) (now : ℝ)
    (tokens : List String) (a : Aircraft) :
    List Command × List String × Aircraft :=
  parseSegAux runways now tokens [] [] a

/-! ## Conflict detector (atc/utils.py lines 63-72) -/

/-- `Aircraft.distance_nm` (aircraft_v2.py lines 441-443). -/
noncomputable def Aircraft.distance_nm (a other : Aircraft) : ℝ :=
  px_to_nm (Real.sqrt ((a.x - other.x) * (a.x - other.x) +
                       (a.y - other.y) * (a.y - other.y)))

/-- `Aircraft.vert_sep` (aircraft_v2.py lines 445-446). -/
noncomputable def Aircraft.vert_sep (a other : Aircraft) : ℝ := |a.alt - other.alt|

/-- Inner loop of `check_conflicts`: pair `a` against every later plane. -/
noncomputable def conflictInner (a : Aircraft) :
    List Aircraft → List (Aircraft × Aircraft × ℝ × ℝ)
  | [] => []
  | b :: rest =>
    if a.state = "LANDED" ∨ b.state = "LANDED" then conflictInner a rest
    else
      let lat := a.distance_nm b
      let vert := a.vert_sep b
      if lat < (SAFE_LAT_NM : ℝ) ∧ vert < (SAFE_VERT_FT : ℝ) then
        (a, b, lat, vert) :: conflictInner a rest
      else conflictInner a rest

/-- `check_conflicts` (atc/utils.py lines 63-72): every ordered pair at
positions `i < j`, skipping LANDED members, reported when both the
lateral and the vertical separation are below their thresholds. -/
noncomputable def check_conflicts : List Aircraft → List (Aircraft × Aircraft × ℝ × ℝ)
  | [] => []
  | a :: rest => conflictInner a rest ++ check_conflicts rest

/-! ## Quadtree spatial index (atc/ai/quadtree.py)

The source class is generic in its coordinate numbers (Python floats) and
payload; the embedding is generic over a linear ordered field `R` and a
payload type `α`.  The per-node `depth`/`max_depth` counters of the source
are construction invariants (children carry `depth + 1` of their parent,
`max_depth` is constant); the embedding carries the remaining depth budget
`fuel = max_depth - depth` as the recursion argument. -/

inductive Quadtree (R : Type) (α : Type) : Type where
  | leaf (x y w h : R) (points : List (R × R × α))
  | node (x y w h : R) (points : List (R × R × α))
         (c0 c1 c2 c3 : Quadtree R α)
deriving Repr

namespace Quadtree

variable {R : Type} [LinearOrderedField R] {α : Type}

/-- `Quadtree.bounds` (quadtree.py lines 17-19). -/
def bounds : Quadtree R α → R × R × R × R
  | leaf a b c d _ => (a, b, c, d)
  | node a b c d _ _ _ _ _ => (a, b, c, d)

/-- The in-bounds test of `insert` (quadtree.py line 23):
`bx <= x <= bx + bw and by <= y <= by + bh`. -/
def inB (a b c d px py : R) : Prop :=
  a ≤ px ∧ px ≤ a + c ∧ b ≤ py ∧ py ≤ b + d

instance (a b c d px py : R) : Decidable (inB a b c d px py) := by
  unfold inB; infer_instance

/-- The round of child-insert attempts shared by `insert` on an interior
node (quadtree.py lines 26-31) and by the `_split` redistribution loop
(lines 44-47): the point goes to the first of the four children whose
`insert` accepts it; the flag reports whether any child accepted. -/
def insert4 (ins : Quadtree R α → R → R → α → Quadtree R α × Bool)
    (cs : Quadtree R α × Quadtree R α × Quadtree R α × Quadtree R α)
    (px py : R) (obj : α) :
    (Quadtree R α × Quadtree R α × Quadtree R α × Quadtree R α) × Bool :=
  let r0 := ins cs.1 px py obj
  if r0.2 then ((r0.1, cs.2.1, cs.2.2.1, cs.2.2.2), true) else
  let r1 := ins cs.2.1 px py obj
  if r1.2 then ((cs.1, r1.1, cs.2.2.1, cs.2.2.2), true) else
  let r2 := ins cs.2.2.1 px py obj
  if r2.2 then ((cs.1, cs.2.1, r2.1, cs.2.2.2), true) else
  let r3 := ins cs.2.2.2 px py obj
  ((cs.1, cs.2.1, cs.2.2.1, r3.1), r3.2)

/-- `Quadtree.insert` (quadtree.py lines 21-33) together with `_split`
(lines 35-49), by recursion on the remaining depth budget.  At budget 0
(`depth >= max_depth`) points are retained regardless of capacity; a full
leaf splits into the four quadrant children and redistributes its points,
each going to the first child that accepts it; an insert into an interior
node goes to the first accepting child. -/
def insertAux (cap : Nat) (fuel : Nat) (t : Quadtree R α) (px py : R) (obj : α) :
    Quadtree R α × Bool :=
  match fuel, t with
  | 0, leaf a b c d pts =>
    if inB a b c d px py then (leaf a b c d (pts ++ [(px, py, obj)]), true)
    else (leaf a b c d pts, false)
  | 0, node a b c d pts c0 c1 c2 c3 =>
    if inB a b c d px py then (node a b c d (pts ++ [(px, py, obj)]) c0 c1 c2 c3, true)
    else (node a b c d pts c0 c1 c2 c3, false)
  | f + 1, leaf a b c d pts =>
    if ¬ inB a b c d px py then (leaf a b c d pts, false)
    else if pts.length < cap then (leaf a b c d (pts ++ [(px, py, obj)]), true)
    else
      let hw := c / 2
      let hh := d / 2
      let init4 : Quadtree R α × Quadtree R α × Quadtree R α × Quadtree R α :=
        (leaf a b hw hh [], leaf (a + hw) b hw hh [],
         leaf a (b + hh) hw hh [], leaf (a + hw) (b + hh) hw hh [])
      let cs := pts.foldl (fun cs q =>
        (insert4 (fun t x y o => insertAux cap f t x y o) cs q.1 q.2.1 q.2.2).1) init4
      let r := insert4 (fun t x y o => insertAux cap f t x y o) cs px py obj
      (node a b c d [] r.1.1 r.1.2.1 r.1.2.2.1 r.1.2.2.2, r.2)
  | f + 1, node a b c d pts c0 c1 c2 c3 =>
    if ¬ inB a b c d px py then (node a b c d pts c0 c1 c2 c3, false)
    else
      let r := insert4 (fun t x y o => insertAux cap f t x y o) (c0, c1, c2, c3) px py obj
      (node a b c d pts r.1.1 r.1.2.1 r.1.2.2.1 r.1.2.2.2, r.2)
termination_by structural fuel

/-- The four quadrant children built by `_split` (quadtree.py lines 36-43)
after redistributing the parent leaf's points. -/
def splitChildren (cap f : Nat) (a b c d : R) (pts : List (R × R × α)) :
    Quadtree R α × Quadtree R α × Quadtree R α × Quadtree R α :=
  pts.foldl (fun cs q =>
      (insert4 (fun t x y o => insertAux cap f t x y o) cs q.1 q.2.1 q.2.2).1)
    (leaf a b (c / 2) (d / 2) [], leaf (a + c / 2) b (c / 2) (d / 2) [],
     leaf a (b + d / 2) (c / 2) (d / 2) [], leaf (a + c / 2) (b + d / 2) (c / 2) (d / 2) [])

/-- `Quadtree._query` (quadtree.py lines 51-65): prune a subtree whose
box's closest point to the query centre is farther than the radius, then
scan leaves. -/
def queryAux (qx qy r : R) : Quadtree R α → List α → List α
  | leaf a b c d pts, out =>
    let cx := max a (min qx (a + c))
    let cy := max b (min qy (b + d))
    if r ^ 2 < (cx - qx) ^ 2 + (cy - qy) ^ 2 then out
    else out ++ (pts.filter (fun p => (p.1 - qx) ^ 2 + (p.2.1 - qy) ^ 2 ≤ r ^ 2)).map
                  (fun p => p.2.2)
  | node a b c d _ c0 c1 c2 c3, out =>
    let cx := max a (min qx (a + c))
    let cy := max b (min qy (b + d))
    if r ^ 2 < (cx - qx) ^ 2 + (cy - qy) ^ 2 then out
    else queryAux qx qy r c3 (queryAux qx qy r c2 (queryAux qx qy r c1 (queryAux qx qy r c0 out)))

/-- `Quadtree.query_radius` (quadtree.py lines 67-71). -/
def query_radius (t : Quadtree R α) (qx qy r : R) : List α := queryAux qx qy r t []

/-- All points stored anywhere in the tree. -/
def toList : Quadtree R α → List (R × R × α)
  | leaf _ _ _ _ pts => pts
  | node _ _ _ _ pts c0 c1 c2 c3 =>
    pts ++ toList c0 ++ toList c1 ++ toList c2 ++ toList c3

/-- Wellformedness of a tree with remaining depth budget `fuel`: leaf
points lie within the leaf's box, interior nodes only exist above budget
0, hold no points of their own (split clears them) and have exactly the
four quadrant children. -/
def WF (cap : Nat) : Nat → Quadtree R α → Prop
  | _, leaf a b c d pts => 0 ≤ c ∧ 0 ≤ d ∧ ∀ p ∈ pts, inB a b c d p.1 p.2.1
  | 0, node _ _ _ _ _ _ _ _ _ => False
  | f + 1, node a b c d pts c0 c1 c2 c3 =>
    0 ≤ c ∧ 0 ≤ d ∧ pts = [] ∧
    c0.bounds = (a, b, c / 2, d / 2) ∧
    c1.bounds = (a + c / 2, b, c / 2, d / 2) ∧
    c2.bounds = (a, b + d / 2, c / 2, d / 2) ∧
    c3.bounds = (a + c / 2, b + d / 2, c / 2, d / 2) ∧
    WF cap f c0 ∧ WF cap f c1 ∧ WF cap f c2 ∧ WF cap f c3

/-- All points stored across a 4-tuple of sibling subtrees. -/
def union4 (cs : Quadtree R α × Quadtree R α × Quadtree R α × Quadtree R α) :
    List (R × R × α) :=
  cs.1.toList ++ cs.2.1.toList ++ cs.2.2.1.toList ++ cs.2.2.2.toList

theorem insertAux_succ_leaf (cap f : Nat) (a b c d : R) (pts : List (R × R × α))
    (px py : R) (obj : α) :
    insertAux cap (f + 1) (leaf a b c d pts) px py obj =
      if ¬ inB a b c d px py then (leaf a b c d pts, false)
      else if pts.length < cap then (leaf a b c d (pts ++ [(px, py, obj)]), true)
      else
        let r := insert4 (fun t x y o => insertAux cap f t x y o)
          (splitChildren cap f a b c d pts) px py obj
        (node a b c d [] r.1.1 r.1.2.1 r.1.2.2.1 r.1.2.2.2, r.2) := rfl

theorem insertAux_succ_node (cap f : Nat) (a b c d : R) (pts : List (R × R × α))
    (c0 c1 c2 c3 : Quadtree R α) (px py : R) (obj : α) :
    insertAux cap (f + 1) (node a b c d pts c0 c1 c2 c3) px py obj =
      if ¬ inB a b c d px py then (node a b c d pts c0 c1 c2 c3, false)
      else
        let r := insert4 (fun t x y o => insertAux cap f t x y o) (c0, c1, c2, c3) px py obj
        (node a b c d pts r.1.1 r.1.2.1 r.1.2.2.1 r.1.2.2.2, r.2) := rfl

theorem mem_toList_node {a b c d : R} {pts : List (R × R × α)}
    {c0 c1 c2 c3 : Quadtree R α} {q : R × R × α} :
    q ∈ (node a b c d pts c0 c1 c2 c3).toList ↔
      q ∈ pts ∨ q ∈ c0.toList ∨ q ∈ c1.toList ∨ q ∈ c2.toList ∨ q ∈ c3.toList := by
  simp [toList, List.mem_append, or_assoc]

theorem mem_union4 {cs : Quadtree R α × Quadtree R α × Quadtree R α × Quadtree R α}
    {q : R × R × α} :
    q ∈ union4 cs ↔
      q ∈ cs.1.toList ∨ q ∈ cs.2.1.toList ∨ q ∈ cs.2.2.1.toList ∨ q ∈ cs.2.2.2.toList := by
  simp [union4, List.mem_append, or_assoc]

/-- A round of child-insert attempts stores nothing beyond the old points
and the attempted one, provided the underlying insert does not. -/
theorem mem_insert4_subset
    {ins : Quadtree R α → R → R → α → Quadtree R α × Bool}
    (hins : ∀ (t : Quadtree R α) (px py : R) (obj : α) (q : R × R × α),
      q ∈ ((ins t px py obj).1).toList → q ∈ t.toList ∨ q = (px, py, obj))
    (cs : Quadtree R α × Quadtree R α × Quadtree R α × Quadtree R α)
    (px py : R) (obj : α) (q : R × R × α)
    (hq : q ∈ union4 (insert4 ins cs px py obj).1) :
    q ∈ union4 cs ∨ q = (px, py, obj) := by
  obtain ⟨t0, t1, t2, t3⟩ := cs
  unfold insert4 at hq
  dsimp only at hq
  split at hq
  · rw [mem_union4] at hq ⊢
    rcases hq with h | h | h | h
    · rcases hins _ _ _ _ _ h with h2 | h2
      · exact Or.inl (Or.inl h2)
      · exact Or.inr h2
    · exact Or.inl (Or.inr (Or.inl h))
    · exact Or.inl (Or.inr (Or.inr (Or.inl h)))
    · exact Or.inl (Or.inr (Or.inr (Or.inr h)))
  · split at hq
    · rw [mem_union4] at hq ⊢
      rcases hq with h | h | h | h
      · exact Or.inl (Or.inl h)
      · rcases hins _ _ _ _ _ h with h2 | h2
        · exact Or.inl (Or.inr (Or.inl h2))
        · exact Or.inr h2
      · exact Or.inl (Or.inr (Or.inr (Or.inl h)))
      · exact Or.inl (Or.inr (Or.inr (Or.inr h)))
    · split at hq
      · rw [mem_union4] at hq ⊢
        rcases hq with h | h | h | h
        · exact Or.inl (Or.inl h)
        · exact Or.inl (Or.inr (Or.inl h))
        · rcases hins _ _ _ _ _ h with h2 | h2
          · exact Or.inl (Or.inr (Or.inr (Or.inl h2)))
          · exact Or.inr h2
        · exact Or.inl (Or.inr (Or.inr (Or.inr h)))
      · rw [mem_union4] at hq ⊢
        rcases hq with h | h | h | h
        · exact Or.inl (Or.inl h)
        · exact Or.inl (Or.inr (Or.inl h))
        · exact Or.inl (Or.inr (Or.inr (Or.inl h)))
        · rcases hins _ _ _ _ _ h with h2 | h2
          · exact Or.inl (Or.inr (Or.inr (Or.inr h2)))
          · exact Or.inr h2

/-- A fold of a step that only adds its argument to the four subtrees
keeps every stored point accounted for. -/
theorem foldl_union4_subset
    {step : (Quadtree R α × Quadtree R α × Quadtree R α × Quadtree R α) →
            (R × R × α) → Quadtree R α × Quadtree R α × Quadtree R α × Quadtree R α}
    (hstep : ∀ cs p q, q ∈ union4 (step cs p) → q ∈ union4 cs ∨ q = p) :
    ∀ (l : List (R × R × α)) cs q,
      q ∈ union4 (l.foldl step cs) → q ∈ union4 cs ∨ q ∈ l := by
  intro l
  induction l with
  | nil => intro cs q h; exact Or.inl h
  | cons p rest ih =>
    intro cs q h
    rcases ih _ q h with h1 | h1
    · rcases hstep _ _ _ h1 with h2 | h2
      · exact Or.inl h2
      · exact Or.inr (by rw [h2]; exact List.mem_cons_self _ _)
    · exact Or.inr (List.mem_cons_of_mem _ h1)

/-- The redistribution fold of `_split` stores only the parent points,
provided the underlying insert stores nothing new. -/
theorem mem_splitChildren_subset (cap f : Nat) (a b c d : R)
    (pts : List (R × R × α))
    (hins : ∀ (t : Quadtree R α) (px py : R) (obj : α) (q : R × R × α),
      q ∈ ((insertAux cap f t px py obj).1).toList → q ∈ t.toList ∨ q = (px, py, obj))
    (q : R × R × α) (hq : q ∈ union4 (splitChildren cap f a b c d pts)) :
    q ∈ pts := by
  unfold splitChildren at hq
  have hstep : ∀ cs (p : R × R × α) qq,
      qq ∈ union4 ((insert4 (fun t x y o => insertAux cap f t x y o) cs p.1 p.2.1 p.2.2).1) →
      qq ∈ union4 cs ∨ qq = p := by
    intro cs p qq hqq
    rcases mem_insert4_subset hins cs p.1 p.2.1 p.2.2 qq hqq with h | h
    · exact Or.inl h
    · exact Or.inr h
  rcases foldl_union4_subset hstep pts _ q hq with h | h
  · simp [union4, toList] at h
  · exact h

/-- Insert soundness: the tree after an insert stores nothing beyond the
old points and the inserted one. -/
theorem toList_insertAux_subset (cap : Nat) :
    ∀ (fuel : Nat) (t : Quadtree R α) (px py : R) (obj : α) (q : R × R × α),
      q ∈ ((insertAux cap fuel t px py obj).1).toList →
      q ∈ t.toList ∨ q = (px, py, obj) := by
  intro fuel
  induction fuel with
  | zero =>
    intro t px py obj q hq
    cases t <;> unfold insertAux at hq <;> split at hq <;>
      simp only [toList, List.mem_append, List.mem_singleton] at hq ⊢ <;> tauto
  | succ f ih =>
    intro t px py obj q hq
    cases t with
    | leaf a b c d pts =>
      rw [insertAux_succ_leaf] at hq
      split at hq
      · exact Or.inl hq
      · split at hq
        · simp only [toList, List.mem_append, List.mem_singleton] at hq ⊢
          tauto
        · dsimp only at hq
          rw [mem_toList_node] at hq
          have hfin : q ∈ union4 ((insert4 (fun t x y o => insertAux cap f t x y o)
              (splitChildren cap f a b c d pts) px py obj).1) →
              q ∈ (leaf a b c d pts).toList ∨ q = (px, py, obj) := by
            intro hu
            rcases mem_insert4_subset ih _ px py obj q hu with h2 | h2
            · exact Or.inl (mem_splitChildren_subset cap f a b c d pts ih q h2)
            · exact Or.inr h2
          rcases hq with h | h | h | h | h
          · exact absurd h (List.not_mem_nil q)
          · exact hfin (by rw [mem_union4]; exact Or.inl h)
          · exact hfin (by rw [mem_union4]; exact Or.inr (Or.inl h))
          · exact hfin (by rw [mem_union4]; exact Or.inr (Or.inr (Or.inl h)))
          · exact hfin (by rw [mem_union4]; exact Or.inr (Or.inr (Or.inr h)))
    | node a b c d pts c0 c1 c2 c3 =>
      rw [insertAux_succ_node] at hq
      split at hq
      · exact Or.inl hq
      · dsimp only at hq
        rw [mem_toList_node] at hq ⊢
        have hfin : q ∈ union4 ((insert4 (fun t x y o => insertAux cap f t x y o)
            (c0, c1, c2, c3) px py obj).1) →
            (q ∈ pts ∨ q ∈ c0.toList ∨ q ∈ c1.toList ∨ q ∈ c2.toList ∨ q ∈ c3.toList) ∨
              q = (px, py, obj) := by
          intro hu
          rcases mem_insert4_subset ih _ px py obj q hu with h2 | h2
          · rw [mem_union4] at h2
            rcases h2 with g | g | g | g
            · exact Or.inl (Or.inr (Or.inl g))
            · exact Or.inl (Or.inr (Or.inr (Or.inl g)))
            · exact Or.inl (Or.inr (Or.inr (Or.inr (Or.inl g))))
            · exact Or.inl (Or.inr (Or.inr (Or.inr (Or.inr g))))
          · exact Or.inr h2
        rcases hq with h | h | h | h | h
        · exact Or.inl (Or.inl h)
        · exact hfin (by rw [mem_union4]; exact Or.inl h)
        · exact hfin (by rw [mem_union4]; exact Or.inr (Or.inl h))
        · exact hfin (by rw [mem_union4]; exact Or.inr (Or.inr (Or.inl h)))
        · exact hfin (by rw [mem_union4]; exact Or.inr (Or.inr (Or.inr h)))

end Quadtree

namespace Quadtree

variable {R : Type} [LinearOrderedField R] {α : Type}

/-- Each component of a round of child-insert attempts is either the old
child or the result of the underlying insert on it. -/
theorem insert4_cases (ins : Quadtree R α → R → R → α → Quadtree R α × Bool)
    (cs : Quadtree R α × Quadtree R α × Quadtree R α × Quadtree R α)
    (px py : R) (obj : α) :
    ((insert4 ins cs px py obj).1.1 = cs.1 ∨
       (insert4 ins cs px py obj).1.1 = (ins cs.1 px py obj).1) ∧
    ((insert4 ins cs px py obj).1.2.1 = cs.2.1 ∨
       (insert4 ins cs px py obj).1.2.1 = (ins cs.2.1 px py obj).1) ∧
    ((insert4 ins cs px py obj).1.2.2.1 = cs.2.2.1 ∨
       (insert4 ins cs px py obj).1.2.2.1 = (ins cs.2.2.1 px py obj).1) ∧
    ((insert4 ins cs px py obj).1.2.2.2 = cs.2.2.2 ∨
       (insert4 ins cs px py obj).1.2.2.2 = (ins cs.2.2.2 px py obj).1) := by
  obtain ⟨t0, t1, t2, t3⟩ := cs
  unfold insert4
  dsimp only
  split
  · exact ⟨Or.inr rfl, Or.inl rfl, Or.inl rfl, Or.inl rfl⟩
  · split
    · exact ⟨Or.inl rfl, Or.inr rfl, Or.inl rfl, Or.inl rfl⟩
    · split
      · exact ⟨Or.inl rfl, Or.inl rfl, Or.inr rfl, Or.inl rfl⟩
      · exact ⟨Or.inl rfl, Or.inl rfl, Or.inl rfl, Or.inr rfl⟩

/-- The flag of a round of child-insert attempts: true exactly when some
child accepted. -/
theorem insert4_flag (ins : Quadtree R α → R → R → α → Quadtree R α × Bool)
    (cs : Quadtree R α × Quadtree R α × Quadtree R α × Quadtree R α)
    (px py : R) (obj : α) :
    (insert4 ins cs px py obj).2 = true ↔
      ((ins cs.1 px py obj).2 = true ∨ (ins cs.2.1 px py obj).2 = true ∨
       (ins cs.2.2.1 px py obj).2 = true ∨ (ins cs.2.2.2 px py obj).2 = true) := by
  obtain ⟨t0, t1, t2, t3⟩ := cs
  unfold insert4
  dsimp only
  split
  · next h => simp [h]
  · next h0 =>
    split
    · next h => simp [h]
    · next h1 =>
      split
      · next h => simp [h]
      · next h2 => simp [h0, h1, h2]

/-- When some child accepts, the point is stored in the resulting round,
provided an accepting insert stores it. -/
theorem insert4_mem_new (ins : Quadtree R α → R → R → α → Quadtree R α × Bool)
    (cs : Quadtree R α × Quadtree R α × Quadtree R α × Quadtree R α)
    (px py : R) (obj : α)
    (h0 : (ins cs.1 px py obj).2 = true →
      (px, py, obj) ∈ ((ins cs.1 px py obj).1).toList)
    (h1 : (ins cs.2.1 px py obj).2 = true →
      (px, py, obj) ∈ ((ins cs.2.1 px py obj).1).toList)
    (h2 : (ins cs.2.2.1 px py obj).2 = true →
      (px, py, obj) ∈ ((ins cs.2.2.1 px py obj).1).toList)
    (h3 : (ins cs.2.2.2 px py obj).2 = true →
      (px, py, obj) ∈ ((ins cs.2.2.2 px py obj).1).toList)
    (hflag : (insert4 ins cs px py obj).2 = true) :
    (px, py, obj) ∈ union4 (insert4 ins cs px py obj).1 := by
  obtain ⟨t0, t1, t2, t3⟩ := cs
  dsimp only at h0 h1 h2 h3
  unfold insert4 at hflag ⊢
  dsimp only at hflag ⊢
  by_cases g0 : (ins t0 px py obj).2 = true
  · rw [if_pos g0] at hflag ⊢
    rw [mem_union4]
    exact Or.inl (h0 g0)
  · rw [if_neg g0] at hflag ⊢
    by_cases g1 : (ins t1 px py obj).2 = true
    · rw [if_pos g1] at hflag ⊢
      rw [mem_union4]
      exact Or.inr (Or.inl (h1 g1))
    · rw [if_neg g1] at hflag ⊢
      by_cases g2 : (ins t2 px py obj).2 = true
      · rw [if_pos g2] at hflag ⊢
        rw [mem_union4]
        exact Or.inr (Or.inr (Or.inl (h2 g2)))
      · rw [if_neg g2] at hflag ⊢
        rw [mem_union4]
        exact Or.inr (Or.inr (Or.inr (h3 hflag)))

/-- An insert never changes the root box. -/
theorem insertAux_bounds (cap : Nat) (fuel : Nat) (t : Quadtree R α)
    (px py : R) (obj : α) :
    ((insertAux cap fuel t px py obj).1).bounds = t.bounds := by
  rcases fuel with _ | f <;> rcases t with ⟨a, b, c, d, pts⟩ | ⟨a, b, c, d, pts, c0, c1, c2, c3⟩
  · unfold insertAux
    split <;> rfl
  · unfold insertAux
    split <;> rfl
  · rw [insertAux_succ_leaf]
    split
    · rfl
    · split <;> rfl
  · rw [insertAux_succ_node]
    split <;> rfl

/-- The four quadrant boxes cover the parent box. -/
theorem quadrant_cover {a b c d px py : R} (h : inB a b c d px py) :
    inB a b (c / 2) (d / 2) px py ∨ inB (a + c / 2) b (c / 2) (d / 2) px py ∨
    inB a (b + d / 2) (c / 2) (d / 2) px py ∨
    inB (a + c / 2) (b + d / 2) (c / 2) (d / 2) px py := by
  obtain ⟨h1, h2, h3, h4⟩ := h
  rcases le_total px (a + c / 2) with hx | hx <;> rcases le_total py (b + d / 2) with hy | hy
  · exact Or.inl ⟨h1, hx, h3, hy⟩
  · exact Or.inr (Or.inr (Or.inl ⟨h1, hx, hy, by linarith⟩))
  · exact Or.inr (Or.inl ⟨hx, by linarith, h3, hy⟩)
  · exact Or.inr (Or.inr (Or.inr ⟨hx, by linarith, hy, by linarith⟩))

/-- A quadrant box is contained in its parent box. -/
theorem quadrant_sub {a b c d px py : R} (hc : 0 ≤ c) (hd : 0 ≤ d)
    (h : inB a b (c / 2) (d / 2) px py ∨ inB (a + c / 2) b (c / 2) (d / 2) px py ∨
      inB a (b + d / 2) (c / 2) (d / 2) px py ∨
      inB (a + c / 2) (b + d / 2) (c / 2) (d / 2) px py) :
    inB a b c d px py := by
  rcases h with ⟨h1, h2, h3, h4⟩ | ⟨h1, h2, h3, h4⟩ | ⟨h1, h2, h3, h4⟩ | ⟨h1, h2, h3, h4⟩ <;>
    exact ⟨by linarith, by linarith, by linarith, by linarith⟩


theorem WF_leaf_iff {cap fuel : Nat} {a b c d : R} {pts : List (R × R × α)} :
    WF cap fuel (leaf a b c d pts) ↔
      (0 ≤ c ∧ 0 ≤ d ∧ ∀ p ∈ pts, inB a b c d p.1 p.2.1) := by
  cases fuel <;> exact Iff.rfl

theorem WF_node_zero {cap : Nat} {a b c d : R} {pts : List (R × R × α)}
    {c0 c1 c2 c3 : Quadtree R α} :
    WF cap 0 (node a b c d pts c0 c1 c2 c3) ↔ False := Iff.rfl

theorem WF_node_succ {cap f : Nat} {a b c d : R} {pts : List (R × R × α)}
    {c0 c1 c2 c3 : Quadtree R α} :
    WF cap (f + 1) (node a b c d pts c0 c1 c2 c3) ↔
      (0 ≤ c ∧ 0 ≤ d ∧ pts = [] ∧
       c0.bounds = (a, b, c / 2, d / 2) ∧
       c1.bounds = (a + c / 2, b, c / 2, d / 2) ∧
       c2.bounds = (a, b + d / 2, c / 2, d / 2) ∧
       c3.bounds = (a + c / 2, b + d / 2, c / 2, d / 2) ∧
       WF cap f c0 ∧ WF cap f c1 ∧ WF cap f c2 ∧ WF cap f c3) := Iff.rfl

/-- The invariant of the four quadrant children of box `(a, b, c, d)`:
quadrant bounds and wellformedness at the child depth budget. -/
def Q4Inv (cap f : Nat) (a b c d : R)
    (cs : Quadtree R α × Quadtree R α × Quadtree R α × Quadtree R α) : Prop :=
  cs.1.bounds = (a, b, c / 2, d / 2) ∧
  cs.2.1.bounds = (a + c / 2, b, c / 2, d / 2) ∧
  cs.2.2.1.bounds = (a, b + d / 2, c / 2, d / 2) ∧
  cs.2.2.2.bounds = (a + c / 2, b + d / 2, c / 2, d / 2) ∧
  WF cap f cs.1 ∧ WF cap f cs.2.1 ∧ WF cap f cs.2.2.1 ∧ WF cap f cs.2.2.2

/-- The induction package for `insertAux` at a fixed depth budget:
wellformedness preservation, preservation of stored points, the
accepted-iff-in-bounds law, and storage of an accepted point. -/
def InsOk (R : Type) [LinearOrderedField R] (α : Type) (cap f : Nat) : Prop :=
  ∀ (t : Quadtree R α) (px py : R) (obj : α),
    (WF cap f t → WF cap f (insertAux cap f t px py obj).1) ∧
    (WF cap f t → ∀ q ∈ t.toList, q ∈ ((insertAux cap f t px py obj).1).toList) ∧
    (WF cap f t → ((insertAux cap f t px py obj).2 = true ↔
      inB t.bounds.1 t.bounds.2.1 t.bounds.2.2.1 t.bounds.2.2.2 px py)) ∧
    (WF cap f t → (insertAux cap f t px py obj).2 = true →
      (px, py, obj) ∈ ((insertAux cap f t px py obj).1).toList)

/-- One round of child-insert attempts keeps the quadrant invariant. -/
theorem insert4_Q4Inv (cap f : Nat) (a b c d : R) (hok : InsOk R α cap f)
    (cs : Quadtree R α × Quadtree R α × Quadtree R α × Quadtree R α)
    (px py : R) (obj : α) (hQ : Q4Inv cap f a b c d cs) :
    Q4Inv cap f a b c d
      ((insert4 (fun t x y o => insertAux cap f t x y o) cs px py obj).1) := by
  obtain ⟨hb0, hb1, hb2, hb3, hw0, hw1, hw2, hw3⟩ := hQ
  have hc := insert4_cases (fun t x y o => insertAux cap f t x y o) cs px py obj
  refine ⟨?_, ?_, ?_, ?_, ?_, ?_, ?_, ?_⟩
  · rcases hc.1 with he | he
    · rw [he]; exact hb0
    · rw [he, insertAux_bounds]; exact hb0
  · rcases hc.2.1 with he | he
    · rw [he]; exact hb1
    · rw [he, insertAux_bounds]; exact hb1
  · rcases hc.2.2.1 with he | he
    · rw [he]; exact hb2
    · rw [he, insertAux_bounds]; exact hb2
  · rcases hc.2.2.2 with he | he
    · rw [he]; exact hb3
    · rw [he, insertAux_bounds]; exact hb3
  · rcases hc.1 with he | he
    · rw [he]; exact hw0
    · rw [he]; exact (hok cs.1 px py obj).1 hw0
  · rcases hc.2.1 with he | he
    · rw [he]; exact hw1
    · rw [he]; exact (hok cs.2.1 px py obj).1 hw1
  · rcases hc.2.2.1 with he | he
    · rw [he]; exact hw2
    · rw [he]; exact (hok cs.2.2.1 px py obj).1 hw2
  · rcases hc.2.2.2 with he | he
    · rw [he]; exact hw3
    · rw [he]; exact (hok cs.2.2.2 px py obj).1 hw3

/-- One round of child-insert attempts keeps every stored point. -/
theorem insert4_keep (cap f : Nat) (a b c d : R) (hok : InsOk R α cap f)
    (cs : Quadtree R α × Quadtree R α × Quadtree R α × Quadtree R α)
    (px py : R) (obj : α) (hQ : Q4Inv cap f a b c d cs) :
    ∀ q ∈ union4 cs,
      q ∈ union4 ((insert4 (fun t x y o => insertAux cap f t x y o) cs px py obj).1) := by
  obtain ⟨hb0, hb1, hb2, hb3, hw0, hw1, hw2, hw3⟩ := hQ
  have hc := insert4_cases (fun t x y o => insertAux cap f t x y o) cs px py obj
  intro q hq
  rw [mem_union4] at hq ⊢
  rcases hq with h | h | h | h
  · rcases hc.1 with he | he
    · rw [he]; exact Or.inl h
    · rw [he]; exact Or.inl ((hok cs.1 px py obj).2.1 hw0 q h)
  · rcases hc.2.1 with he | he
    · rw [he]; exact Or.inr (Or.inl h)
    · rw [he]; exact Or.inr (Or.inl ((hok cs.2.1 px py obj).2.1 hw1 q h))
  · rcases hc.2.2.1 with he | he
    · rw [he]; exact Or.inr (Or.inr (Or.inl h))
    · rw [he]; exact Or.inr (Or.inr (Or.inl ((hok cs.2.2.1 px py obj).2.1 hw2 q h)))
  · rcases hc.2.2.2 with he | he
    · rw [he]; exact Or.inr (Or.inr (Or.inr h))
    · rw [he]; exact Or.inr (Or.inr (Or.inr ((hok cs.2.2.2 px py obj).2.1 hw3 q h)))

/-- A point inside the parent box is accepted by some quadrant child and
ends up stored in the round's result. -/
theorem insert4_accepts (cap f : Nat) (a b c d : R) (hok : InsOk R α cap f)
    (cs : Quadtree R α × Quadtree R α × Quadtree R α × Quadtree R α)
    (px py : R) (obj : α) (hQ : Q4Inv cap f a b c d cs)
    (hin : inB a b c d px py) :
    (insert4 (fun t x y o => insertAux cap f t x y o) cs px py obj).2 = true ∧
    (px, py, obj) ∈
      union4 ((insert4 (fun t x y o => insertAux cap f t x y o) cs px py obj).1) := by
  obtain ⟨hb0, hb1, hb2, hb3, hw0, hw1, hw2, hw3⟩ := hQ
  have hflag : (insert4 (fun t x y o => insertAux cap f t x y o) cs px py obj).2 = true := by
    rw [insert4_flag]
    rcases quadrant_cover hin with h | h | h | h
    · exact Or.inl ((hok cs.1 px py obj).2.2.1 hw0 |>.2 (by rw [hb0]; exact h))
    · exact Or.inr (Or.inl ((hok cs.2.1 px py obj).2.2.1 hw1 |>.2 (by rw [hb1]; exact h)))
    · exact Or.inr (Or.inr (Or.inl
        ((hok cs.2.2.1 px py obj).2.2.1 hw2 |>.2 (by rw [hb2]; exact h))))
    · exact Or.inr (Or.inr (Or.inr
        ((hok cs.2.2.2 px py obj).2.2.1 hw3 |>.2 (by rw [hb3]; exact h))))
  refine ⟨hflag, ?_⟩
  exact insert4_mem_new _ cs px py obj
    (fun hf => (hok cs.1 px py obj).2.2.2 hw0 hf)
    (fun hf => (hok cs.2.1 px py obj).2.2.2 hw1 hf)
    (fun hf => (hok cs.2.2.1 px py obj).2.2.2 hw2 hf)
    (fun hf => (hok cs.2.2.2 px py obj).2.2.2 hw3 hf)
    hflag

/-- The redistribution fold of `_split` keeps the quadrant invariant,
keeps already-stored points, and stores every redistributed point that
lies in the parent box. -/
theorem fold_redistribute (cap f : Nat) (a b c d : R) (hok : InsOk R α cap f) :
    ∀ (l : List (R × R × α))
      (cs : Quadtree R α × Quadtree R α × Quadtree R α × Quadtree R α),
      Q4Inv cap f a b c d cs → (∀ p ∈ l, inB a b c d p.1 p.2.1) →
      Q4Inv cap f a b c d
        (l.foldl (fun cs q =>
          (insert4 (fun t x y o => insertAux cap f t x y o) cs q.1 q.2.1 q.2.2).1) cs) ∧
      (∀ q ∈ union4 cs,
        q ∈ union4 (l.foldl (fun cs q =>
          (insert4 (fun t x y o => insertAux cap f t x y o) cs q.1 q.2.1 q.2.2).1) cs)) ∧
      (∀ q ∈ l,
        q ∈ union4 (l.foldl (fun cs q =>
          (insert4 (fun t x y o => insertAux cap f t x y o) cs q.1 q.2.1 q.2.2).1) cs)) := by
  intro l
  induction l with
  | nil =>
    intro cs hQ hl
    exact ⟨hQ, fun q hq => hq, fun q hq => absurd hq (List.not_mem_nil q)⟩
  | cons p rest ihl =>
    intro cs hQ hl
    simp only [List.foldl_cons]
    have hQ1 := insert4_Q4Inv cap f a b c d hok cs p.1 p.2.1 p.2.2 hQ
    have hkeep := insert4_keep cap f a b c d hok cs p.1 p.2.1 p.2.2 hQ
    have hacc := insert4_accepts cap f a b c d hok cs p.1 p.2.1 p.2.2 hQ
      (hl p (List.mem_cons_self _ _))
    obtain ⟨hQ2, hold2, hnew2⟩ := ihl _ hQ1 (fun p2 hp2 => hl p2 (List.mem_cons_of_mem _ hp2))
    refine ⟨hQ2, ?_, ?_⟩
    · intro q hq
      exact hold2 q (hkeep q hq)
    · intro q hq
      rcases List.mem_cons.1 hq with rfl | hq2
      · exact hold2 q hacc.2
      · exact hnew2 q hq2

/-- The quadrant children built by `_split`: invariant holds and every
parent point in the parent box is stored in some child. -/
theorem splitChildren_master (cap f : Nat) (a b c d : R)
    (pts : List (R × R × α)) (hok : InsOk R α cap f)
    (hc0 : 0 ≤ c) (hd0 : 0 ≤ d)
    (hpts : ∀ p ∈ pts, inB a b c d p.1 p.2.1) :
    Q4Inv cap f a b c d (splitChildren cap f a b c d pts) ∧
    ∀ q ∈ pts, q ∈ union4 (splitChildren cap f a b c d pts) := by
  unfold splitChildren
  have hQ0 : Q4Inv cap f a b c d
      ((leaf a b (c / 2) (d / 2) [], leaf (a + c / 2) b (c / 2) (d / 2) [],
        leaf a (b + d / 2) (c / 2) (d / 2) [],
        leaf (a + c / 2) (b + d / 2) (c / 2) (d / 2) []) :
          Quadtree R α × Quadtree R α × Quadtree R α × Quadtree R α) := by
    refine ⟨rfl, rfl, rfl, rfl, ?_, ?_, ?_, ?_⟩ <;>
      (dsimp only; rw [WF_leaf_iff]; exact ⟨by linarith, by linarith, by simp⟩)
  have h := fold_redistribute cap f a b c d hok pts _ hQ0 hpts
  exact ⟨h.1, h.2.2⟩


/-- `insertAux` satisfies the induction package at every depth budget:
wellformedness is preserved, stored points are kept, acceptance is
equivalent to the point lying in the root box, and an accepted point is
stored. -/
theorem insertAux_master (cap : Nat) : ∀ (fuel : Nat), InsOk R α cap fuel := by
  intro fuel
  induction fuel with
  | zero =>
    intro t px py obj
    rcases t with ⟨a, b, c, d, pts⟩ | ⟨a, b, c, d, pts, c0, c1, c2, c3⟩
    · unfold insertAux
      by_cases hin : inB a b c d px py
      · rw [if_pos hin]
        refine ⟨?_, ?_, ?_, ?_⟩
        · intro hwf
          rw [WF_leaf_iff] at hwf ⊢
          refine ⟨hwf.1, hwf.2.1, ?_⟩
          intro p hp
          rcases List.mem_append.1 hp with h | h
          · exact hwf.2.2 p h
          · obtain rfl := List.mem_singleton.1 h
            exact hin
        · intro hwf q hq
          exact List.mem_append_left _ hq
        · intro hwf
          exact iff_of_true rfl hin
        · intro hwf hflag
          exact List.mem_append_right _ (List.mem_singleton.2 rfl)
      · rw [if_neg hin]
        refine ⟨fun hwf => hwf, fun hwf q hq => hq, ?_, ?_⟩
        · intro hwf
          exact iff_of_false (by simp) hin
        · intro hwf hflag
          exact absurd hflag (by simp)
    · refine ⟨fun hwf => ?_, fun hwf => ?_, fun hwf => ?_, fun hwf => ?_⟩ <;>
        exact (WF_node_zero.1 hwf).elim
  | succ f ih =>
    have hok : InsOk R α cap f := ih
    intro t px py obj
    rcases t with ⟨a, b, c, d, pts⟩ | ⟨a, b, c, d, pts, c0, c1, c2, c3⟩
    · rw [insertAux_succ_leaf]
      by_cases hin : inB a b c d px py
      · rw [if_neg (not_not_intro hin)]
        by_cases hlen : pts.length < cap
        · rw [if_pos hlen]
          refine ⟨?_, ?_, ?_, ?_⟩
          · intro hwf
            rw [WF_leaf_iff] at hwf ⊢
            refine ⟨hwf.1, hwf.2.1, ?_⟩
            intro p hp
            rcases List.mem_append.1 hp with h | h
            · exact hwf.2.2 p h
            · obtain rfl := List.mem_singleton.1 h
              exact hin
          · intro hwf q hq
            exact List.mem_append_left _ hq
          · intro hwf
            exact iff_of_true rfl hin
          · intro hwf hflag
            exact List.mem_append_right _ (List.mem_singleton.2 rfl)
        · rw [if_neg hlen]
          dsimp only
          have key : WF cap (f + 1) (leaf a b c d pts) →
              Q4Inv cap f a b c d
                ((insert4 (fun t x y o => insertAux cap f t x y o)
                  (splitChildren cap f a b c d pts) px py obj).1) ∧
              (∀ q ∈ pts,
                q ∈ union4 ((insert4 (fun t x y o => insertAux cap f t x y o)
                  (splitChildren cap f a b c d pts) px py obj).1)) ∧
              (insert4 (fun t x y o => insertAux cap f t x y o)
                  (splitChildren cap f a b c d pts) px py obj).2 = true ∧
              (px, py, obj) ∈ union4 ((insert4 (fun t x y o => insertAux cap f t x y o)
                  (splitChildren cap f a b c d pts) px py obj).1) := by
            intro hwf
            rw [WF_leaf_iff] at hwf
            obtain ⟨hc0, hd0, hpts⟩ := hwf
            obtain ⟨hQs, hmem⟩ := splitChildren_master cap f a b c d pts hok hc0 hd0 hpts
            have hQf := insert4_Q4Inv cap f a b c d hok _ px py obj hQs
            have hkeep := insert4_keep cap f a b c d hok _ px py obj hQs
            have hacc := insert4_accepts cap f a b c d hok _ px py obj hQs hin
            exact ⟨hQf, fun q hq => hkeep q (hmem q hq), hacc.1, hacc.2⟩
          refine ⟨?_, ?_, ?_, ?_⟩
          · intro hwf
            obtain ⟨hQf, -, -, -⟩ := key hwf
            obtain ⟨hb0, hb1, hb2, hb3, hw0, hw1, hw2, hw3⟩ := hQf
            rw [WF_leaf_iff] at hwf
            rw [WF_node_succ]
            exact ⟨hwf.1, hwf.2.1, rfl, hb0, hb1, hb2, hb3, hw0, hw1, hw2, hw3⟩
          · intro hwf q hq
            obtain ⟨-, hmem, -, -⟩ := key hwf
            rw [mem_toList_node]
            have hu := hmem q hq
            rw [mem_union4] at hu
            rcases hu with h | h | h | h
            · exact Or.inr (Or.inl h)
            · exact Or.inr (Or.inr (Or.inl h))
            · exact Or.inr (Or.inr (Or.inr (Or.inl h)))
            · exact Or.inr (Or.inr (Or.inr (Or.inr h)))
          · intro hwf
            obtain ⟨-, -, hflag, -⟩ := key hwf
            exact iff_of_true hflag hin
          · intro hwf hflag
            obtain ⟨-, -, -, hnew⟩ := key hwf
            rw [mem_toList_node]
            rw [mem_union4] at hnew
            rcases hnew with h | h | h | h
            · exact Or.inr (Or.inl h)
            · exact Or.inr (Or.inr (Or.inl h))
            · exact Or.inr (Or.inr (Or.inr (Or.inl h)))
            · exact Or.inr (Or.inr (Or.inr (Or.inr h)))
      · rw [if_pos hin]
        refine ⟨fun hwf => hwf, fun hwf q hq => hq, ?_, ?_⟩
        · intro hwf
          exact iff_of_false (by simp) hin
        · intro hwf hflag
          exact absurd hflag (by simp)
    · rw [insertAux_succ_node]
      by_cases hin : inB a b c d px py
      · rw [if_neg (not_not_intro hin)]
        dsimp only
        have key : WF cap (f + 1) (node a b c d pts c0 c1 c2 c3) →
            pts = [] ∧
            Q4Inv cap f a b c d
              ((insert4 (fun t x y o => insertAux cap f t x y o)
                (c0, c1, c2, c3) px py obj).1) ∧
            (∀ q ∈ union4 ((c0, c1, c2, c3) :
                Quadtree R α × Quadtree R α × Quadtree R α × Quadtree R α),
              q ∈ union4 ((insert4 (fun t x y o => insertAux cap f t x y o)
                (c0, c1, c2, c3) px py obj).1)) ∧
            (insert4 (fun t x y o => insertAux cap f t x y o)
                (c0, c1, c2, c3) px py obj).2 = true ∧
            (px, py, obj) ∈ union4 ((insert4 (fun t x y o => insertAux cap f t x y o)
                (c0, c1, c2, c3) px py obj).1) := by
          intro hwf
          rw [WF_node_succ] at hwf
          obtain ⟨hc0, hd0, hpe, hb0, hb1, hb2, hb3, hw0, hw1, hw2, hw3⟩ := hwf
          have hQ : Q4Inv cap f a b c d (c0, c1, c2, c3) :=
            ⟨hb0, hb1, hb2, hb3, hw0, hw1, hw2, hw3⟩
          have hQf := insert4_Q4Inv cap f a b c d hok _ px py obj hQ
          have hkeep := insert4_keep cap f a b c d hok _ px py obj hQ
          have hacc := insert4_accepts cap f a b c d hok _ px py obj hQ hin
          exact ⟨hpe, hQf, hkeep, hacc.1, hacc.2⟩
        refine ⟨?_, ?_, ?_, ?_⟩
        · intro hwf
          obtain ⟨hpe, hQf, -, -, -⟩ := key hwf
          obtain ⟨hb0, hb1, hb2, hb3, hw0, hw1, hw2, hw3⟩ := hQf
          rw [WF_node_succ] at hwf ⊢
          exact ⟨hwf.1, hwf.2.1, hpe, hb0, hb1, hb2, hb3, hw0, hw1, hw2, hw3⟩
        · intro hwf q hq
          obtain ⟨hpe, -, hkeep, -, -⟩ := key hwf
          rw [mem_toList_node] at hq ⊢
          rcases hq with h | h | h | h | h
          · exact Or.inl h
          all_goals
            (have hu : q ∈ union4 ((c0, c1, c2, c3) :
                Quadtree R α × Quadtree R α × Quadtree R α × Quadtree R α) := by
              rw [mem_union4]
              tauto)
          all_goals
            (have hu2 := hkeep q hu
             rw [mem_union4] at hu2
             rcases hu2 with h2 | h2 | h2 | h2 <;> tauto)
        · intro hwf
          obtain ⟨-, -, -, hflag, -⟩ := key hwf
          exact iff_of_true hflag hin
        · intro hwf hflag
          obtain ⟨-, -, -, -, hnew⟩ := key hwf
          rw [mem_toList_node]
          rw [mem_union4] at hnew
          rcases hnew with h | h | h | h
          · exact Or.inr (Or.inl h)
          · exact Or.inr (Or.inr (Or.inl h))
          · exact Or.inr (Or.inr (Or.inr (Or.inl h)))
          · exact Or.inr (Or.inr (Or.inr (Or.inr h)))
      · rw [if_pos hin]
        refine ⟨fun hwf => hwf, fun hwf q hq => hq, ?_, ?_⟩
        · intro hwf
          exact iff_of_false (by simp) hin
        · intro hwf hflag
          exact absurd hflag (by simp)


/-- In a wellformed tree every stored point lies in the root box. -/
theorem WF_mem_inB (cap : Nat) : ∀ (fuel : Nat) (t : Quadtree R α), WF cap fuel t →
    ∀ q ∈ t.toList,
      inB t.bounds.1 t.bounds.2.1 t.bounds.2.2.1 t.bounds.2.2.2 q.1 q.2.1 := by
  intro fuel
  induction fuel with
  | zero =>
    intro t hwf q hq
    rcases t with ⟨a, b, c, d, pts⟩ | ⟨a, b, c, d, pts, c0, c1, c2, c3⟩
    · exact (WF_leaf_iff.1 hwf).2.2 q hq
    · exact (WF_node_zero.1 hwf).elim
  | succ f ih =>
    intro t hwf q hq
    rcases t with ⟨a, b, c, d, pts⟩ | ⟨a, b, c, d, pts, c0, c1, c2, c3⟩
    · exact (WF_leaf_iff.1 hwf).2.2 q hq
    · rw [WF_node_succ] at hwf
      obtain ⟨hc0, hd0, hpe, hb0, hb1, hb2, hb3, hw0, hw1, hw2, hw3⟩ := hwf
      rw [mem_toList_node] at hq
      rcases hq with h | h | h | h | h
      · rw [hpe] at h
        exact absurd h (List.not_mem_nil q)
      · have hx := ih c0 hw0 q h
        rw [hb0] at hx
        exact quadrant_sub hc0 hd0 (Or.inl hx)
      · have hx := ih c1 hw1 q h
        rw [hb1] at hx
        exact quadrant_sub hc0 hd0 (Or.inr (Or.inl hx))
      · have hx := ih c2 hw2 q h
        rw [hb2] at hx
        exact quadrant_sub hc0 hd0 (Or.inr (Or.inr (Or.inl hx)))
      · have hx := ih c3 hw3 q h
        rw [hb3] at hx
        exact quadrant_sub hc0 hd0 (Or.inr (Or.inr (Or.inr hx)))

/-- The query accumulator only grows. -/
theorem queryAux_mono : ∀ (t : Quadtree R α) (qx qy r : R) (out : List α) (x : α),
    x ∈ out → x ∈ queryAux qx qy r t out := by
  intro t
  induction t with
  | leaf a b c d pts =>
    intro qx qy r out x hx
    unfold queryAux
    dsimp only
    split
    · exact hx
    · exact List.mem_append_left _ hx
  | node a b c d pts c0 c1 c2 c3 ih0 ih1 ih2 ih3 =>
    intro qx qy r out x hx
    unfold queryAux
    dsimp only
    split
    · exact hx
    · exact ih3 _ _ _ _ _ (ih2 _ _ _ _ _ (ih1 _ _ _ _ _ (ih0 _ _ _ _ _ hx)))

/-- A leaf is never pruned by a query centred on one of its in-box
points, and that point always passes the distance filter. -/
theorem query_complete_leaf {a b c d : R} {pts : List (R × R × α)}
    {q : R × R × α} {r : R}
    (hin : inB a b c d q.1 q.2.1) (hq : q ∈ pts) (hr : 0 ≤ r) (out : List α) :
    q.2.2 ∈ queryAux q.1 q.2.1 r (leaf a b c d pts) out := by
  unfold queryAux
  dsimp only
  obtain ⟨h1, h2, h3, h4⟩ := hin
  have hcx : max a (min q.1 (a + c)) = q.1 := by rw [min_eq_left h2, max_eq_right h1]
  have hcy : max b (min q.2.1 (b + d)) = q.2.1 := by rw [min_eq_left h4, max_eq_right h3]
  rw [hcx, hcy]
  have hnp : ¬ (r ^ 2 < (q.1 - q.1) ^ 2 + (q.2.1 - q.2.1) ^ 2) := by
    rw [sub_self, sub_self]
    simp only [ne_eq, OfNat.ofNat_ne_zero, not_false_eq_true, zero_pow, add_zero, not_lt]
    positivity
  rw [if_neg hnp]
  refine List.mem_append_right _ ?_
  rw [List.mem_map]
  refine ⟨q, ?_, rfl⟩
  rw [List.mem_filter]
  refine ⟨hq, ?_⟩
  rw [decide_eq_true_eq, sub_self, sub_self]
  simp only [ne_eq, OfNat.ofNat_ne_zero, not_false_eq_true, zero_pow, add_zero]
  positivity

/-- Query completeness: in a wellformed tree, a radius query centred on a
stored point always reports it, for every nonnegative radius. -/
theorem query_complete (cap : Nat) : ∀ (fuel : Nat) (t : Quadtree R α)
    (q : R × R × α) (r : R) (out : List α),
    WF cap fuel t → q ∈ t.toList → 0 ≤ r →
    q.2.2 ∈ queryAux q.1 q.2.1 r t out := by
  intro fuel
  induction fuel with
  | zero =>
    intro t q r out hwf hq hr
    rcases t with ⟨a, b, c, d, pts⟩ | ⟨a, b, c, d, pts, c0, c1, c2, c3⟩
    · exact query_complete_leaf (WF_mem_inB cap 0 _ hwf q hq) hq hr out
    · exact (WF_node_zero.1 hwf).elim
  | succ f ih =>
    intro t q r out hwf hq hr
    rcases t with ⟨a, b, c, d, pts⟩ | ⟨a, b, c, d, pts, c0, c1, c2, c3⟩
    · exact query_complete_leaf (WF_mem_inB cap (f + 1) _ hwf q hq) hq hr out
    · have hin := WF_mem_inB cap (f + 1) _ hwf q hq
      rw [WF_node_succ] at hwf
      obtain ⟨hc0, hd0, hpe, hb0, hb1, hb2, hb3, hw0, hw1, hw2, hw3⟩ := hwf
      rw [mem_toList_node] at hq
      unfold queryAux
      dsimp only
      obtain ⟨h1, h2, h3, h4⟩ := hin
      have h1a : a ≤ q.1 := h1
      have h2a : q.1 ≤ a + c := h2
      have h3a : b ≤ q.2.1 := h3
      have h4a : q.2.1 ≤ b + d := h4
      have hcx : max a (min q.1 (a + c)) = q.1 := by rw [min_eq_left h2a, max_eq_right h1a]
      have hcy : max b (min q.2.1 (b + d)) = q.2.1 := by rw [min_eq_left h4a, max_eq_right h3a]
      rw [hcx, hcy]
      have hnp : ¬ (r ^ 2 < (q.1 - q.1) ^ 2 + (q.2.1 - q.2.1) ^ 2) := by
        rw [sub_self, sub_self]
        simp only [ne_eq, OfNat.ofNat_ne_zero, not_false_eq_true, zero_pow, add_zero, not_lt]
        positivity
      rw [if_neg hnp]
      rcases hq with h | h | h | h | h
      · rw [hpe] at h
        exact absurd h (List.not_mem_nil q)
      · exact queryAux_mono _ _ _ _ _ _ (queryAux_mono _ _ _ _ _ _
          (queryAux_mono _ _ _ _ _ _ (ih c0 q r out hw0 h hr)))
      · exact queryAux_mono _ _ _ _ _ _ (queryAux_mono _ _ _ _ _ _
          (ih c1 q r _ hw1 h hr))
      · exact queryAux_mono _ _ _ _ _ _ (ih c2 q r _ hw2 h hr)
      · exact ih c3 q r _ hw3 h hr

/-- A sequence of inserts, as performed by the controller when it fills
the index. -/
def insertList (cap fuel : Nat) (t : Quadtree R α) (ops : List (R × R × α)) :
    Quadtree R α :=
  ops.foldl (fun t p => (insertAux cap fuel t p.1 p.2.1 p.2.2).1) t

/-- A sequence of in-box inserts keeps the tree wellformed and stores
every inserted point (and keeps all previously stored ones). -/
theorem insertList_stores (cap fuel : Nat) : ∀ (ops : List (R × R × α)) (t : Quadtree R α),
    WF cap fuel t →
    (∀ p ∈ ops, inB t.bounds.1 t.bounds.2.1 t.bounds.2.2.1 t.bounds.2.2.2 p.1 p.2.1) →
    WF cap fuel (insertList cap fuel t ops) ∧
    (∀ q ∈ t.toList, q ∈ (insertList cap fuel t ops).toList) ∧
    (∀ p ∈ ops, p ∈ (insertList cap fuel t ops).toList) := by
  intro ops
  induction ops with
  | nil =>
    intro t hwf hops
    exact ⟨hwf, fun q hq => hq, fun p hp => absurd hp (List.not_mem_nil p)⟩
  | cons p rest ihl =>
    intro t hwf hops
    have hstep := insertAux_master cap fuel t p.1 p.2.1 p.2.2
    have hw1 : WF cap fuel (insertAux cap fuel t p.1 p.2.1 p.2.2).1 := hstep.1 hwf
    have hb := insertAux_bounds cap fuel t p.1 p.2.1 p.2.2
    have hflag : (insertAux cap fuel t p.1 p.2.1 p.2.2).2 = true :=
      (hstep.2.2.1 hwf).2 (hops p (List.mem_cons_self _ _))
    have hpmem : (p.1, p.2.1, p.2.2) ∈ ((insertAux cap fuel t p.1 p.2.1 p.2.2).1).toList :=
      hstep.2.2.2 hwf hflag
    obtain ⟨hwr, hkeep, hins⟩ := ihl (insertAux cap fuel t p.1 p.2.1 p.2.2).1 hw1
      (fun p2 hp2 => by rw [hb]; exact hops p2 (List.mem_cons_of_mem _ hp2))
    refine ⟨hwr, ?_, ?_⟩
    · intro q hq
      exact hkeep q (hstep.2.1 hwf q hq)
    · intro p2 hp2
      rcases List.mem_cons.1 hp2 with rfl | hp3
      · exact hkeep p2 hpmem
      · exact hins p2 hp3

end Quadtree

/-! ## Autonomous controller (atc/ai/controller.py) -/

/-- The quadtree built at the start of every `AIController.update` pass
(controller.py lines 24-26): root box (0, 0, WIDTH, HEIGHT), capacity 8,
maximum depth 8, filled from the planes' current positions. -/
noncomputable def buildQt (planes : List Aircraft) : Quadtree ℝ Aircraft :=
  planes.foldl (fun qt p => (Quadtree.insertAux 8 8 qt p.x p.y p).1)
    (Quadtree.leaf ((0 : ℝ)) 0 ((WIDTH : ℝ)) ((HEIGHT : ℝ)) [])

/-- `AIController._choose_runway_for` (controller.py lines 64-89).
`candidates.sort` is stable, so `candidates[0]` is the first candidate of
minimal bearing difference, computed here by a left fold. -/
noncomputable def chooseRunwayFor (ac : Aircraft) (runways : List Runway) :
    Option (Runway × Int) :=
  if runways.isEmpty then none
  else
    let candidates := (runways.filter (fun rw => rw.is_available)).filterMap
      (fun rw =>
        let diff := |pymod (((rw.bearing : ℝ) - ac.hdg) + 540) 360 - 180|
        if diff ≤ AI_ALIGN_ALLOWED_DIFF_DEG then some (rw, diff) else none)
    let best := candidates.foldl
      (fun acc p => match acc with
        | none => some p
        | some q => if p.2 < q.2 then some p else some q) none
    match best with
    | none => none
    | some (rw, _) =>
      let dx := ac.x - (rw.x : ℝ)
      let dy := ac.y - (rw.y : ℝ)
      if Real.sqrt (dx ^ 2 + dy ^ 2) ≤ nm_to_px AI_APPROACH_ARM_DIST_NM then
        some (rw, rw.bearing)
      else none

/-- The heading value enqueued by the deconfliction turn (controller.py
line 44): `int((ac.hdg + turn) % 180)`. -/
noncomputable def deconflictHdg (hdg turn : ℝ) : Int := pyTrunc (pymod (hdg + turn) 180)

/-- The command list appended by one autonomous decision (controller.py
lines 39-62), given the nearby-traffic query result and the two random
draws (turn side, fix choice). -/
noncomputable def aiDecideQueue (ac : Aircraft) (nearby : List Aircraft)
    (runways : List Runway) (sign : Bool) (fixNames : List String)
    (pick : String) : List Command :=
  if !nearby.isEmpty then
    let turn := AI_DECONFLICT_TURN * (if sign then 1 else -1)
    [⟨"HDG", some (pad3 (deconflictHdg ac.hdg turn)), none⟩]
  else
    match chooseRunwayFor ac runways with
    | some (rw, align_hdg) =>
      [⟨"HDG", some (pad3 align_hdg), none⟩,
       ⟨"SPD", some (natToStr AI_LANDING_SPEED), none⟩,
       ⟨"ALT", some "0", none⟩,
       ⟨"LAND", some rw.name, none⟩]
    | none => if !fixNames.isEmpty then [⟨"NAV", some pick, none⟩] else []

/-- One plane's pass of the decision loop (controller.py lines 30-62):
skip non-autonomous planes and planes whose decision timer has not
elapsed; otherwise reset the timer, query the index around the plane,
drop the plane itself from the result and decide. -/
noncomputable def aiStepPlane (qt : Quadtree ℝ Aircraft) (runways : List Runway)
    (now : ℝ) (sign : String → Bool) (pick : String → String)
    (fixNames : List String) (ac : Aircraft) : Aircraft :=
  if ¬ ac.ai_controlled then ac
  else if now < ac.ai_next_decision then ac
  else
    let ac1 := { ac with ai_next_decision := now + AI_DECISION_PERIOD }
    let nearby := (qt.query_radius ac.x ac.y (nm_to_px ((SAFE_LAT_NM : ℝ) * (8 / 10)))).filter
      (fun o => o.callsign ≠ ac.callsign)
    { ac1 with command_queue :=
        ac1.command_queue ++
          aiDecideQueue ac1 nearby runways (sign ac.callsign) fixNames (pick ac.callsign) }

/-- `AIController.update` (controller.py lines 20-62): nothing on an empty
plane list; otherwise rebuild the quadtree from the current positions and
run every plane's decision step against it. -/
noncomputable def aiUpdate (planes : List Aircraft) (runways : List Runway)
    (now : ℝ) (sign : String → Bool) (pick : String → String)
    (fixNames : List String) : List Aircraft :=
  if planes.isEmpty then planes
  else
    let qt := buildQt planes
    planes.map (aiStepPlane qt runways now sign pick fixNames)

/-! ## Simulation tick (main.py lines 317-344, update_simulation lines
198-206) -/

/-- The mutable simulation state touched by one tick (the relevant subset
of main.py's `state` dict plus the airport arrival set). -/
structure SimState where
  planes : List Aircraft
  runways : List Runway
  arrivals : List String
  conflicts : List (Aircraft × Aircraft × ℝ × ℝ)
  ai_enabled : Bool

/-- The per-tick environment: timestep, wall clock, and the oracles
standing for the random draws, keyed by callsign. -/
structure TickEnv where
  dt : ℝ
  now : ℝ
  delayDraw : String → ℝ
  aiSign : String → Bool
  aiPick : String → String
  fixes : List Fix
  fixNames : List String

/-- The per-aircraft update loop of `update_simulation` (main.py lines
200-202): planes update in list order, threading the shared runway
registry and airport arrival set. -/
noncomputable def updatePlanes (env : TickEnv) :
    List Aircraft → List Runway → List String →
    List Aircraft × List Runway × List String
  | [], runways, arrivals => ([], runways, arrivals)
  | p :: rest, runways, arrivals =>
    let r := p.update env.dt env.now (env.delayDraw p.callsign) env.fixes runways arrivals
    let rr := updatePlanes env rest r.2.1 r.2.2
    (r.1 :: rr.1, rr.2.1, rr.2.2)

/-- One simulation tick (main.py lines 317-344): (1) the AI decision pass
when enabled — which itself begins by rebuilding the spatial index from
the positions current at that moment — then (2) the per-aircraft updates,
then (3) conflict detection over the updated planes
(`update_simulation`, main.py lines 198-206). -/
noncomputable def tick (env : TickEnv) (s : SimState) : SimState :=
  let planes1 :=
    if s.ai_enabled then
      aiUpdate s.planes s.runways env.now env.aiSign env.aiPick env.fixNames
    else s.planes
  let u := updatePlanes env planes1 s.runways s.arrivals
  { planes := u.1, runways := u.2.1, arrivals := u.2.2,
    conflicts := check_conflicts u.1, ai_enabled := s.ai_enabled }

/-! ### C5 support: command-queue preservation through the update stages,
and the contents of the controller's spatial index. -/

theorem execute_command_queue (a : Aircraft) (cmd : Command) (fixes : List Fix)
    (runways : List Runway) (now : ℝ) :
    (a.execute_command cmd fixes runways now).1.command_queue = a.command_queue := by
  by_cases h1 : cmd.type = "ALT"
  · simp only [Aircraft.execute_command, h1, String.reduceEq, reduceIte]
    split <;> rfl
  · by_cases h2 : cmd.type = "HDG"
    · simp only [Aircraft.execute_command, h1, h2, String.reduceEq, reduceIte]
      split <;> rfl
    · by_cases h3 : cmd.type = "SPD"
      · simp only [Aircraft.execute_command, h1, h2, h3, String.reduceEq, reduceIte]
        split <;> rfl
      · by_cases h4 : cmd.type = "HOLD"
        · simp only [Aircraft.execute_command, h1, h2, h3, h4, String.reduceEq, reduceIte]
        · by_cases h5 : cmd.type = "NAV"
          · simp only [Aircraft.execute_command, h1, h2, h3, h4, h5, String.reduceEq,
              reduceIte]
            repeat' split
            all_goals rfl
          · by_cases h6 : cmd.type = "TAKEOFF"
            · simp only [Aircraft.execute_command, h1, h2, h3, h4, h5, h6, String.reduceEq,
                reduceIte]
              repeat' split
              all_goals rfl
            · by_cases h7 : cmd.type = "LAND"
              · simp only [Aircraft.execute_command, h1, h2, h3, h4, h5, h6, h7,
                  String.reduceEq, reduceIte]
                repeat' split
                all_goals rfl
              · simp only [Aircraft.execute_command, h1, h2, h3, h4, h5, h6, h7,
                  String.reduceEq, reduceIte]

theorem updAltitude_queue (a : Aircraft) (dt now : ℝ) :
    (updAltitude a dt now).command_queue = a.command_queue := by
  unfold updAltitude
  split
  · dsimp only
    repeat' split
    all_goals rfl
  · dsimp only
    repeat' split
    all_goals rfl

theorem turn_towards_queue (a : Aircraft) (tgt dt : ℝ) :
    (a.turn_towards tgt dt).command_queue = a.command_queue := by
  unfold Aircraft.turn_towards
  dsimp only
  repeat' split
  all_goals rfl

theorem updSpeed_queue (a : Aircraft) (dt : ℝ) :
    (updSpeed a dt).command_queue = a.command_queue := by
  unfold updSpeed
  dsimp only
  repeat' split
  all_goals rfl

theorem updDecel_queue (a : Aircraft) (dt : ℝ) :
    (updDecel a dt).command_queue = a.command_queue := by
  unfold updDecel
  repeat' split
  all_goals rfl

theorem updPosition_queue (a : Aircraft) (dt : ℝ) :
    (updPosition a dt).command_queue = a.command_queue := rfl

theorem updRunway_queue (a : Aircraft) (rws : List Runway) (ars : List String)
    (now : ℝ) :
    (updRunway a rws ars now).1.command_queue = a.command_queue := by
  unfold updRunway
  dsimp only
  repeat' split
  all_goals rfl

theorem updCommands_queue (a : Aircraft) (fixes : List Fix) (runways : List Runway)
    (dt now delayDraw : ℝ) :
    (updCommands a fixes runways dt now delayDraw).1.1.command_queue = a.command_queue ∨
    (updCommands a fixes runways dt now delayDraw).1.1.command_queue =
      a.command_queue.tail := by
  unfold updCommands
  rcases hq : a.command_queue with _ | ⟨cur, rest⟩
  · left
    simp [hq]
  · simp only [hq]
    split
    · split
      · right
        simp only [execute_command_queue, hq, List.tail_cons]
      · left
        simp only [execute_command_queue]
    · split
      · left
        simp only [hq]
      · split
        · right
          simp only [execute_command_queue, hq, List.tail_cons]
        · left
          simp only [execute_command_queue]

theorem update_queue_pops_at_most_one (a : Aircraft) (dt now delayDraw : ℝ)
    (fixes : List Fix) (runways : List Runway) (arrivals : List String) :
    (a.update dt now delayDraw fixes runways arrivals).1.command_queue =
      a.command_queue ∨
    (a.update dt now delayDraw fixes runways arrivals).1.command_queue =
      a.command_queue.tail := by
  unfold Aircraft.update
  dsimp only
  have h1 := updCommands_queue a fixes runways dt now delayDraw
  rcases hC : updCommands a fixes runways dt now delayDraw with ⟨⟨a1, rws1⟩, flag⟩
  rw [hC] at h1
  dsimp only at h1
  dsimp only
  cases flag
  · simp only [Bool.false_eq_true, if_false]
    split
    · dsimp only
      exact h1
    · have hst : (updRunway (updPosition (updDecel (updSpeed
          (match (updAltitude a1 dt now).dest_hdg with
            | some t => (updAltitude a1 dt now).turn_towards t dt
            | none => updAltitude a1 dt now) dt) dt) dt) rws1 arrivals
          now).1.command_queue = a1.command_queue := by
        rw [updRunway_queue, updPosition_queue, updDecel_queue, updSpeed_queue]
        rcases hd : (updAltitude a1 dt now).dest_hdg with _ | t
        · simp only [hd]
          rw [updAltitude_queue]
        · simp only [hd]
          rw [turn_towards_queue, updAltitude_queue]
      rw [hst]
      exact h1
  · simp only [if_true]
    exact h1

theorem mem_buildQt (planes : List Aircraft) (q : ℝ × ℝ × Aircraft)
    (hq : q ∈ (buildQt planes).toList) : ∃ p ∈ planes, q = (p.x, p.y, p) := by
  have key : ∀ (l : List Aircraft) (t : Quadtree ℝ Aircraft) (q : ℝ × ℝ × Aircraft),
      q ∈ (l.foldl (fun qt p => (Quadtree.insertAux 8 8 qt p.x p.y p).1) t).toList →
      q ∈ t.toList ∨ ∃ p ∈ l, q = (p.x, p.y, p) := by
    intro l
    induction l with
    | nil => intro t q h; exact Or.inl h
    | cons p rest ih =>
      intro t q h
      rcases ih _ q h with h1 | h1
      · rcases Quadtree.toList_insertAux_subset 8 8 t p.x p.y p q h1 with h2 | h2
        · exact Or.inl h2
        · exact Or.inr ⟨p, List.mem_cons_self _ _, h2⟩
      · rcases h1 with ⟨p2, hp2, he⟩
        exact Or.inr ⟨p2, List.mem_cons_of_mem _ hp2, he⟩
  unfold buildQt at hq
  rcases key planes _ q hq with h | h
  · exact absurd h (List.not_mem_nil q)
  · exact h

/-- The index built from a single in-bounds plane holds exactly that
plane's position entry. -/
theorem buildQt_singleton (p : Aircraft) (hx0 : 0 ≤ p.x) (hx1 : p.x ≤ ((WIDTH : ℝ)))
    (hy0 : 0 ≤ p.y) (hy1 : p.y ≤ ((HEIGHT : ℝ))) :
    buildQt [p] = Quadtree.leaf 0 0 ((WIDTH : ℝ)) ((HEIGHT : ℝ)) [(p.x, p.y, p)] := by
  unfold buildQt
  simp only [List.foldl_cons, List.foldl_nil]
  have h8 : (8 : ℕ) = 7 + 1 := rfl
  rw [h8, Quadtree.insertAux_succ_leaf]
  rw [if_neg (not_not_intro ⟨hx0, by rw [zero_add]; exact hx1,
        hy0, by rw [zero_add]; exact hy1⟩),
      if_pos (by norm_num)]
  rfl

/-! ## Claims -/

/-- C1 counterexample: the claim that `occupy(aircraft)` never succeeds
(never changes the holder) when `is_available()` is false fails on the
code: `Runway.occupy` is unguarded and overwrites the holder even on a
runway that is already occupied by another aircraft. -/
theorem C1_occupy_overwrites_when_unavailable :
    (Runway.is_available
      { name := "RWY1", active_aircraft := some "BAW123",
        status := RUNWAY_OCCUPIED_STATUS, last_used := 0 } = false) ∧
    (Runway.occupy
      { name := "RWY1", active_aircraft := some "BAW123",
        status := RUNWAY_OCCUPIED_STATUS, last_used := 0 } "EZY456" 5).active_aircraft
      = some "EZY456" ∧
    (Runway.occupy
      { name := "RWY1", active_aircraft := some "BAW123",
        status := RUNWAY_OCCUPIED_STATUS, last_used := 0 } "EZY456" 5).active_aircraft
      ≠ some "BAW123" := by
  refine ⟨rfl, rfl, ?_⟩
  simp [Runway.occupy]

/-- C1 (amended): `Runway.occupy` itself overwrites the holder
unconditionally, but every call site guards it with `is_available()`:
`execute_command` (the only caller of `occupy` in the source) leaves every
runway whose `is_available()` is false completely unchanged, whatever
command it executes, so through command execution an occupied runway
never changes holder and each runway holds at most one aircraft reference
(a single optional field). -/
theorem C1_occupy_guarded_at_call_sites
    (a : Aircraft) (cmd : Command) (fixes : List Fix) (runways : List Runway)
    (now : ℝ) (j : Nat) (r : Runway)
    (hj : runways.get? j = some r) (hun : r.is_available = false) :
    ((a.execute_command cmd fixes runways now).2.1).get? j = some r := by
  have hset : ∀ i rw, runways.get? i = some rw → (rw.is_available = false → False) →
      (runways.set i (rw.occupy a.callsign now)).get? j = some r := by
    intro i rw hi hav
    rcases Decidable.em (i = j) with h | h
    · subst h
      rw [hi] at hj
      cases hj
      exact absurd hun hav
    · rw [List.get?_eq_getElem?, List.getElem?_set_ne h, ← List.get?_eq_getElem?]
      exact hj
  by_cases h1 : cmd.type = "ALT"
  · simp only [Aircraft.execute_command, h1, String.reduceEq, reduceIte]
    rcases Decidable.em (pyIsDigit (cmd.value.getD "") = true) with hd | hd
    · rw [if_pos hd]; exact hj
    · rw [if_neg hd]; exact hj
  by_cases h2 : cmd.type = "HDG"
  · simp only [Aircraft.execute_command, h2, String.reduceEq, reduceIte]
    rcases Decidable.em (pyIsDigit (cmd.value.getD "") = true) with hd | hd
    · rw [if_pos hd]; exact hj
    · rw [if_neg hd]; exact hj
  by_cases h3 : cmd.type = "SPD"
  · simp only [Aircraft.execute_command, h3, String.reduceEq, reduceIte]
    rcases Decidable.em (pyIsDigit (cmd.value.getD "") = true) with hd | hd
    · rw [if_pos hd]; exact hj
    · rw [if_neg hd]; exact hj
  by_cases h4 : cmd.type = "HOLD"
  · simp only [Aircraft.execute_command, h4, String.reduceEq, reduceIte]
    exact hj
  by_cases h5 : cmd.type = "NAV"
  · simp only [Aircraft.execute_command, h5, String.reduceEq, reduceIte]
    rcases hf : (fixes.find? fun f => f.name == cmd.value.getD "") with _ | f
    · simp only [hf]; exact hj
    · simp only [hf]
      rcases Decidable.em
          (distance_to_fix a f < 12) with hd | hd
      · rw [if_pos hd]; exact hj
      · rw [if_neg hd]; exact hj
  by_cases h6 : cmd.type = "TAKEOFF"
  · simp only [Aircraft.execute_command, h6, String.reduceEq, reduceIte]
    rcases hsp : pySplitComma (cmd.value.getD "") with _ | ⟨rn, _ | ⟨sp, _ | ⟨al, _ | ⟨z, tl⟩⟩⟩⟩
    · simp only [hsp]; exact hj
    · simp only [hsp]; exact hj
    · simp only [hsp]; exact hj
    · simp only [hsp]
      rcases hfi : (runways.findIdx? fun r => r.name == rn) with _ | i
      · simp only [hfi]; exact hj
      · simp only [hfi]
        rcases hgi : runways.get? i with _ | rw
        · simp only [hgi]; exact hj
        · simp only [hgi]
          rcases Decidable.em ((!rw.is_available) = true) with hre | hre
          · rw [if_pos hre]; exact hj
          · rw [if_neg hre]
            refine hset i rw hgi ?_
            intro hfalse
            rw [hfalse] at hre
            exact hre rfl
    · simp only [hsp]; exact hj
  by_cases h7 : cmd.type = "LAND"
  · simp only [Aircraft.execute_command, h7, String.reduceEq, reduceIte]
    rcases hfi : (runways.findIdx? fun r => r.name == cmd.value.getD "") with _ | i
    · simp only [hfi]; exact hj
    · simp only [hfi]
      rcases hgi : runways.get? i with _ | rw
      · simp only [hgi]; exact hj
      · simp only [hgi]
        rcases Decidable.em ((!rw.is_available) = true) with hre | hre
        · rw [if_pos hre]; exact hj
        · rw [if_neg hre]
          refine hset i rw hgi ?_
          intro hfalse
          rw [hfalse] at hre
          exact hre rfl
  · simp only [Aircraft.execute_command]
    rw [if_neg h1, if_neg h2, if_neg h3, if_neg h4, if_neg h5, if_neg h6, if_neg h7]
    exact hj

/-- C1 witness: a concrete occupied runway is untouched by a TAKEOFF
command naming it. -/
theorem C1_witness :
    (([({ name := "RWY1", active_aircraft := some "BAW123",
          status := RUNWAY_OCCUPIED_STATUS, last_used := 0 } : Runway)].get? 0 =
        some { name := "RWY1", active_aircraft := some "BAW123",
               status := RUNWAY_OCCUPIED_STATUS, last_used := 0 }) ∧
     (Runway.is_available
       { name := "RWY1", active_aircraft := some "BAW123",
         status := RUNWAY_OCCUPIED_STATUS, last_used := 0 } = false)) ∧
    ((Aircraft.execute_command { callsign := "EZY456" }
        ⟨"TAKEOFF", some "RWY1,180,4000", none⟩ []
        [{ name := "RWY1", active_aircraft := some "BAW123",
           status := RUNWAY_OCCUPIED_STATUS, last_used := 0 }] 0).2.1.get? 0 =
      some { name := "RWY1", active_aircraft := some "BAW123",
             status := RUNWAY_OCCUPIED_STATUS, last_used := 0 }) :=
  ⟨⟨rfl, rfl⟩, C1_occupy_guarded_at_call_sites _ _ _ _ _ 0 _ rfl rfl⟩

/-- C4: executing a TAKEOFF command is all-or-nothing.  If the named
runway does not exist, or exists but is not available, the aircraft is
unchanged except for its message and the runway registry is untouched.
If it is available, the runway becomes occupied by this aircraft, the
aircraft enters state TAKEOFF with `current_runway` set, `dest_spd` and
`dest_alt` taken from the command value, and `dest_hdg` set to the runway
bearing. -/
theorem C4_takeoff_all_or_nothing
    (a : Aircraft) (fixes : List Fix) (runways : List Runway) (now : ℝ)
    (value : String) (extra : Option String) (rname spd alt : String)
    (hsplit : pySplitComma value = [rname, spd, alt]) :
    (runways.findIdx? (fun r => r.name == rname) = none →
       (a.execute_command ⟨"TAKEOFF", some value, extra⟩ fixes runways now).1 =
         { a with msg := (a.execute_command ⟨"TAKEOFF", some value, extra⟩ fixes runways now).1.msg } ∧
       (a.execute_command ⟨"TAKEOFF", some value, extra⟩ fixes runways now).2.1 = runways) ∧
    (∀ i rw, runways.findIdx? (fun r => r.name == rname) = some i →
       runways.get? i = some rw → rw.is_available = false →
       (a.execute_command ⟨"TAKEOFF", some value, extra⟩ fixes runways now).1 =
         { a with msg := (a.execute_command ⟨"TAKEOFF", some value, extra⟩ fixes runways now).1.msg } ∧
       (a.execute_command ⟨"TAKEOFF", some value, extra⟩ fixes runways now).2.1 = runways) ∧
    (∀ i rw, runways.findIdx? (fun r => r.name == rname) = some i →
       runways.get? i = some rw → rw.is_available = true →
       (a.execute_command ⟨"TAKEOFF", some value, extra⟩ fixes runways now).1.state = "TAKEOFF" ∧
       (a.execute_command ⟨"TAKEOFF", some value, extra⟩ fixes runways now).1.current_runway = some i ∧
       (a.execute_command ⟨"TAKEOFF", some value, extra⟩ fixes runways now).1.dest_spd = some (pyInt spd) ∧
       (a.execute_command ⟨"TAKEOFF", some value, extra⟩ fixes runways now).1.dest_alt = pyInt alt ∧
       (a.execute_command ⟨"TAKEOFF", some value, extra⟩ fixes runways now).1.dest_hdg = some ((rw.bearing : ℝ)) ∧
       (a.execute_command ⟨"TAKEOFF", some value, extra⟩ fixes runways now).2.1 =
         runways.set i (rw.occupy a.callsign now) ∧
       (rw.occupy a.callsign now).active_aircraft = some a.callsign) := by
  refine ⟨?_, ?_, ?_⟩
  · intro hfi
    simp only [Aircraft.execute_command, String.reduceEq, reduceIte, Option.getD_some,
      hsplit, hfi]
    refine ⟨?_, ?_⟩ <;> trivial
  · intro i rw hfi hgi hun
    simp only [Aircraft.execute_command, String.reduceEq, reduceIte, Option.getD_some,
      hsplit, hfi, hgi]
    rw [if_pos (show (!rw.is_available) = true by rw [hun]; rfl)]
    refine ⟨?_, ?_⟩ <;> trivial
  · intro i rw hfi hgi hav
    simp only [Aircraft.execute_command, String.reduceEq, reduceIte, Option.getD_some,
      hsplit, hfi, hgi]
    rw [if_neg (show ¬ (!rw.is_available) = true by rw [hav]; simp)]
    refine ⟨?_, ?_, ?_, ?_, ?_, ?_, ?_⟩ <;> trivial

/-- C4 witness: a concrete TAKEOFF against a concrete available runway. -/
theorem C4_witness :
    (pySplitComma "RWY1,180,4000" = ["RWY1", "180", "4000"]) ∧
    ([({ name := "RWY1", last_used := 0 } : Runway)].findIdx?
       (fun r => r.name == "RWY1") = some 0) ∧
    (Runway.is_available { name := "RWY1", last_used := 0 } = true) ∧
    ((Aircraft.execute_command { callsign := "BAW1" }
        ⟨"TAKEOFF", some "RWY1,180,4000", none⟩ []
        [{ name := "RWY1", last_used := 0 }] 0).1.state = "TAKEOFF" ∧
     (Aircraft.execute_command { callsign := "BAW1" }
        ⟨"TAKEOFF", some "RWY1,180,4000", none⟩ []
        [{ name := "RWY1", last_used := 0 }] 0).1.dest_spd = some 180 ∧
     (Aircraft.execute_command { callsign := "BAW1" }
        ⟨"TAKEOFF", some "RWY1,180,4000", none⟩ []
        [{ name := "RWY1", last_used := 0 }] 0).1.dest_alt = 4000) := by
  have h := (C4_takeoff_all_or_nothing { callsign := "BAW1" } []
      [{ name := "RWY1", last_used := 0 }] 0 "RWY1,180,4000" none
      "RWY1" "180" "4000" (by decide)).2.2 0 { name := "RWY1", last_used := 0 }
      rfl rfl rfl
  exact ⟨by decide, rfl, rfl, h.1, by rw [h.2.2.1]; decide, by rw [h.2.2.2.1]; decide⟩

/-- C10: an altitude instruction takes effect at parse time, not at
command execution: `_handle_altitude_command` immediately calls
`set_altitude_target(value*1000)` (starting the eased profile: the profile
start time, start altitude and target are recorded) and assigns
`dest_alt`, before the queued ALT command is ever executed; executing a
queued ALT command later only assigns `dest_alt` and the expedite flag
and leaves every interpolation-profile field unchanged. -/
theorem C10_altitude_effective_at_parse_time
    (a : Aircraft) (arg : String) (extra : Option String) (now : ℝ)
    (b : Aircraft) (v : String) (e : Option String) (now2 : ℝ)
    (fixes : List Fix) (runways : List Runway)
    (hv : pyIsDigit v = true) :
    ((handleAltitudeCommand a arg extra now).1.1 = [⟨"ALT", some arg, extra⟩]) ∧
    ((handleAltitudeCommand a arg extra now).2.dest_alt = pyInt arg * 1000) ∧
    ((handleAltitudeCommand a arg extra now).2.alt_start_time = some now) ∧
    ((handleAltitudeCommand a arg extra now).2.alt_target = ((pyInt arg * 1000 : ℤ) : ℝ)) ∧
    ((handleAltitudeCommand a arg extra now).2.alt_start = a.alt) ∧
    ((b.execute_command ⟨"ALT", some v, e⟩ fixes runways now2).1.dest_alt = pyInt v * 1000) ∧
    ((b.execute_command ⟨"ALT", some v, e⟩ fixes runways now2).1.expedite =
      (e == some "X" || e == some "EX")) ∧
    ((b.execute_command ⟨"ALT", some v, e⟩ fixes runways now2).1.alt_start_time = b.alt_start_time) ∧
    ((b.execute_command ⟨"ALT", some v, e⟩ fixes runways now2).1.alt_target = b.alt_target) ∧
    ((b.execute_command ⟨"ALT", some v, e⟩ fixes runways now2).1.alt_start = b.alt_start) ∧
    ((b.execute_command ⟨"ALT", some v, e⟩ fixes runways now2).1.alt_duration = b.alt_duration) ∧
    ((b.execute_command ⟨"ALT", some v, e⟩ fixes runways now2).1.alt_stabilise_start =
      b.alt_stabilise_start) ∧
    ((b.execute_command ⟨"ALT", some v, e⟩ fixes runways now2).1.alt = b.alt) ∧
    ((b.execute_command ⟨"ALT", some v, e⟩ fixes runways now2).2.1 = runways) := by
  have hexec : (b.execute_command ⟨"ALT", some v, e⟩ fixes runways now2) =
      ({ b with dest_alt := pyInt v * 1000,
                expedite := e == some "X" || e == some "EX" }, runways, true) := by
    simp only [Aircraft.execute_command, String.reduceEq, reduceIte, Option.getD_some]
    rw [if_pos hv]
  refine ⟨rfl, rfl, rfl, rfl, rfl, ?_, ?_, ?_, ?_, ?_, ?_, ?_, ?_, ?_⟩ <;>
    rw [hexec]

/-- C10 witness: parsing `C 50` on a concrete aircraft starts the profile
at parse time with target 50000 ft, and executing the queued ALT command
touches only `dest_alt`/`expedite`. -/
theorem C10_witness :
    (pyIsDigit "50" = true) ∧
    ((handleAltitudeCommand { callsign := "BAW1", alt := 2000 } "50" none 7).2.dest_alt
        = 50000) ∧
    ((handleAltitudeCommand { callsign := "BAW1", alt := 2000 } "50" none 7).2.alt_start_time
        = some 7) ∧
    ((Aircraft.execute_command { callsign := "EZY2" } ⟨"ALT", some "50", none⟩
        [] [] 9).1.alt_start_time = none) := by
  have h := C10_altitude_effective_at_parse_time
    { callsign := "BAW1", alt := 2000 } "50" none 7
    { callsign := "EZY2" } "50" none 9 [] [] (by decide)
  refine ⟨by decide, ?_, h.2.2.1, h.2.2.2.2.2.2.2.1⟩
  rw [h.2.1]
  decide

/-- C9: in `_parse_segment`, an altitude instruction discards everything
parsed before it in the same segment.  For a digit argument `d` that is
not exactly 3 characters long, (1) the parse of a segment starting at the
altitude instruction `C d` is entirely independent of the commands
accumulated so far (the branch rebinds the whole command list to the pair
returned by `_handle_altitude_command`), so (2) whenever the tokens `ts1`
before the instruction parse to the accumulated state `(cmds1, acks1, a1)`,
the command list of the full segment equals that of parsing
`C d ++ ts2` alone from an empty command accumulator — every command
parsed from `ts1` is dropped and never enqueued. -/
theorem C9_altitude_branch_discards_accumulator
    (runways : List Runway) (now : ℝ) (d : String) (ts1 ts2 : List String)
    (a a1 : Aircraft) (cmds1 : List Command) (acks1 : List String)
    (hd1 : pyIsDigit d = true) (hd3 : d.length ≠ 3)
    (hpre : parseSegAux runways now (ts1 ++ "C" :: d :: ts2) [] [] a =
            parseSegAux runways now ("C" :: d :: ts2) cmds1 acks1 a1) :
    (∀ cmds cmds2 acks b,
        parseSegAux runways now ("C" :: d :: ts2) cmds acks b =
        parseSegAux runways now ("C" :: d :: ts2) cmds2 acks b) ∧
    (parseSegAux runways now (ts1 ++ "C" :: d :: ts2) [] [] a).1 =
      (parseSegAux runways now ("C" :: d :: ts2) [] acks1 a1).1 := by
  have hb : (pyIsDigit d && d.length == 3) = false := by
    rw [hd1]
    simp [hd3]
  have hdrop : ∀ cmds cmds2 acks b,
      parseSegAux runways now ("C" :: d :: ts2) cmds acks b =
      parseSegAux runways now ("C" :: d :: ts2) cmds2 acks b := by
    intro cmds cmds2 acks b
    cases ts2 with
    | nil =>
      simp only [parseSegAux]
      rw [if_neg (by rw [hb]; simp), if_pos hd1,
          if_neg (by rw [hb]; simp), if_pos hd1]
    | cons e rest3 =>
      by_cases hc : CMD_TURN_TOKENS.contains e = true
      · simp only [parseSegAux]
        rw [if_pos hc, if_pos hc,
            if_neg (by rw [hb]; simp), if_pos hd1,
            if_neg (by rw [hb]; simp), if_pos hd1]
      · simp only [parseSegAux]
        rw [if_neg hc, if_neg hc,
            if_neg (by rw [hb]; simp), if_pos hd1,
            if_neg (by rw [hb]; simp), if_pos hd1]
  refine ⟨hdrop, ?_⟩
  rw [hpre, hdrop cmds1 [] acks1 a1]

/-- C9 witness: the heading command parsed from the prefix `C 090` is
dropped once the altitude instruction `C 50` is reached. -/
theorem C9_witness :
    (pyIsDigit "50" = true) ∧ ("50".length ≠ 3) ∧
    ((parseSegAux [] 0 (["C", "090"] ++ "C" :: "50" :: ["S", "250"]) [] []
        { callsign := "BAW1" }).1 =
      (parseSegAux [] 0 ("C" :: "50" :: ["S", "250"]) []
        ["turn heading zero nine zero"] { callsign := "BAW1" }).1) :=
  ⟨by decide, by decide,
    (C9_altitude_branch_discards_accumulator [] 0 "50" ["C", "090"] ["S", "250"]
      { callsign := "BAW1" } { callsign := "BAW1" }
      [⟨"HDG", some "090", none⟩] ["turn heading zero nine zero"]
      (by decide) (by decide) rfl).2⟩

/-- C6: heading turn-rate bound.  For every aircraft, target heading and
dt > 0, one call to `turn_towards` (1) changes the heading by at most
`turn_rate * dt` in circular distance; (2) when the remaining difference
(the code's `(tgt - cur + 360) % 360` measure) is smaller than one tick's
rotation, the heading snaps exactly to the normalized target; (3)
otherwise the heading moves by exactly `turn_rate * dt` in the chosen
direction — the forced one if set, else the shorter arc. -/
theorem C6_turn_rate_bound (a : Aircraft) (tgt dt : ℝ) (hdt : 0 < dt) :
    circDist (a.turn_towards tgt dt).hdg a.hdg ≤ TURN_RATE_DEG_PER_SEC * dt ∧
    (|pymod (normalize_hdg tgt - normalize_hdg a.hdg + 360) 360| <
        TURN_RATE_DEG_PER_SEC * dt →
      (a.turn_towards tgt dt).hdg = normalize_hdg tgt) ∧
    (TURN_RATE_DEG_PER_SEC * dt ≤
        |pymod (normalize_hdg tgt - normalize_hdg a.hdg + 360) 360| →
      pymod (turnSign a.turn_dir_forced (normalize_hdg a.hdg) (normalize_hdg tgt) *
          ((a.turn_towards tgt dt).hdg - a.hdg)) 360 =
        pymod (TURN_RATE_DEG_PER_SEC * dt) 360) := by
  have h360 : (0 : ℝ) < 360 := by norm_num
  have hrate : (0 : ℝ) < TURN_RATE_DEG_PER_SEC := by
    simp only [TURN_RATE_DEG_PER_SEC]
    norm_num
  have hr : 0 < TURN_RATE_DEG_PER_SEC * dt := mul_pos hrate hdt
  have hnorm : ∀ x : ℝ, normalize_hdg x = pymod x 360 := fun _ => rfl
  -- the code remaining-difference measure equals pymod (tgt - hdg) 360
  have hdiff : |pymod (normalize_hdg tgt - normalize_hdg a.hdg + 360) 360| =
      pymod (tgt - a.hdg) 360 := by
    rw [abs_of_nonneg (pymod_nonneg _ h360)]
    have h1 : normalize_hdg tgt - normalize_hdg a.hdg + 360 =
        (normalize_hdg tgt - normalize_hdg a.hdg) + 360 * ((1 : ℤ) : ℝ) := by
      push_cast
      ring
    rw [h1, pymod_add_int_mul _ (by norm_num) 1, hnorm, hnorm,
        pymod_sub_left _ _ (by norm_num), pymod_sub_right _ _ (by norm_num)]
  have hsign : turnSign a.turn_dir_forced (normalize_hdg a.hdg) (normalize_hdg tgt) = 1 ∨
      turnSign a.turn_dir_forced (normalize_hdg a.hdg) (normalize_hdg tgt) = -1 := by
    unfold turnSign shortest_turn_dir
    split
    · exact Or.inl rfl
    · split
      · exact Or.inr rfl
      · split
        · exact Or.inl rfl
        · exact Or.inr rfl
  rcases Decidable.em (|pymod (normalize_hdg tgt - normalize_hdg a.hdg + 360) 360| <
      TURN_RATE_DEG_PER_SEC * dt) with hsnap | hsnap
  · -- snap branch: the heading becomes the normalized target
    have hres : (a.turn_towards tgt dt).hdg = normalize_hdg tgt := by
      simp only [Aircraft.turn_towards]
      rw [if_pos hsnap]
    refine ⟨?_, fun _ => hres, fun hge => absurd hsnap (not_lt.2 hge)⟩
    rw [hres]
    have h1 : pymod (normalize_hdg tgt - a.hdg) 360 = pymod (tgt - a.hdg) 360 := by
      rw [hnorm]
      exact pymod_sub_left _ _ (by norm_num)
    calc circDist (normalize_hdg tgt) a.hdg ≤ pymod (normalize_hdg tgt - a.hdg) 360 :=
          min_le_left _ _
      _ = pymod (tgt - a.hdg) 360 := h1
      _ = |pymod (normalize_hdg tgt - normalize_hdg a.hdg + 360) 360| := hdiff.symm
      _ ≤ TURN_RATE_DEG_PER_SEC * dt := le_of_lt hsnap
  · -- move branch: the heading advances by exactly the tick rotation
    have hres : (a.turn_towards tgt dt).hdg =
        normalize_hdg (a.hdg +
          turnSign a.turn_dir_forced (normalize_hdg a.hdg) (normalize_hdg tgt) *
            TURN_RATE_DEG_PER_SEC * dt) := by
      simp only [Aircraft.turn_towards]
      rw [if_neg hsnap]
    have hfwd : pymod ((a.turn_towards tgt dt).hdg - a.hdg) 360 =
        pymod (turnSign a.turn_dir_forced (normalize_hdg a.hdg) (normalize_hdg tgt) *
          TURN_RATE_DEG_PER_SEC * dt) 360 := by
      rw [hres, hnorm, pymod_sub_left _ _ (by norm_num)]
      congr 1
      ring
    have hbwd : pymod (a.hdg - (a.turn_towards tgt dt).hdg) 360 =
        pymod (-(turnSign a.turn_dir_forced (normalize_hdg a.hdg) (normalize_hdg tgt) *
          TURN_RATE_DEG_PER_SEC * dt)) 360 := by
      rw [hres, hnorm, pymod_sub_right _ _ (by norm_num)]
      congr 1
      ring
    refine ⟨?_, fun hlt => absurd hlt hsnap, fun _ => ?_⟩
    · unfold circDist
      rw [hfwd, hbwd]
      rcases hsign with h1 | h1 <;> rw [h1]
      · calc min (pymod (1 * TURN_RATE_DEG_PER_SEC * dt) 360)
              (pymod (-(1 * TURN_RATE_DEG_PER_SEC * dt)) 360) ≤
              pymod (1 * TURN_RATE_DEG_PER_SEC * dt) 360 := min_le_left _ _
          _ = pymod (TURN_RATE_DEG_PER_SEC * dt) 360 := by rw [one_mul]
          _ ≤ TURN_RATE_DEG_PER_SEC * dt := pymod_le_self hr.le h360
      · calc min (pymod (-1 * TURN_RATE_DEG_PER_SEC * dt) 360)
              (pymod (-(-1 * TURN_RATE_DEG_PER_SEC * dt)) 360) ≤
              pymod (-(-1 * TURN_RATE_DEG_PER_SEC * dt)) 360 := min_le_right _ _
          _ = pymod (TURN_RATE_DEG_PER_SEC * dt) 360 := by norm_num
          _ ≤ TURN_RATE_DEG_PER_SEC * dt := pymod_le_self hr.le h360
    · rcases hsign with h1 | h1 <;> rw [h1]
      · rw [one_mul, hfwd, h1, one_mul]
      · have hgoal : (-1 : ℝ) * ((a.turn_towards tgt dt).hdg - a.hdg) =
            a.hdg - (a.turn_towards tgt dt).hdg := by ring
        rw [hgoal, hbwd, h1]
        congr 1
        ring

/-- C6 witness: the bound at a concrete aircraft, target and timestep. -/
theorem C6_witness :
    (0 : ℝ) < 1 ∧
    (circDist ((Aircraft.turn_towards { callsign := "BAW1", hdg := 0 } 90 1).hdg) 0 ≤
        TURN_RATE_DEG_PER_SEC * 1 ∧
     (|pymod (normalize_hdg 90 - normalize_hdg 0 + 360) 360| <
         TURN_RATE_DEG_PER_SEC * 1 →
       (Aircraft.turn_towards { callsign := "BAW1", hdg := 0 } 90 1).hdg =
         normalize_hdg 90) ∧
     (TURN_RATE_DEG_PER_SEC * 1 ≤
         |pymod (normalize_hdg 90 - normalize_hdg 0 + 360) 360| →
       pymod (turnSign none (normalize_hdg 0) (normalize_hdg 90) *
           ((Aircraft.turn_towards { callsign := "BAW1", hdg := 0 } 90 1).hdg - 0)) 360 =
         pymod (TURN_RATE_DEG_PER_SEC * 1) 360)) :=
  ⟨by norm_num, C6_turn_rate_bound { callsign := "BAW1", hdg := 0 } 90 1 (by norm_num)⟩

/-- Soundness of the inner pairing loop of `check_conflicts`. -/
theorem conflictInner_sound {a : Aircraft} {x : Aircraft × Aircraft × ℝ × ℝ} :
    ∀ {rest : List Aircraft}, x ∈ conflictInner a rest →
    ∃ b, b ∈ rest ∧ x = (a, b, a.distance_nm b, a.vert_sep b) ∧
      a.state ≠ "LANDED" ∧ b.state ≠ "LANDED" ∧
      a.distance_nm b < (SAFE_LAT_NM : ℝ) ∧ a.vert_sep b < (SAFE_VERT_FT : ℝ) := by
  intro rest
  induction rest with
  | nil => intro h; simp [conflictInner] at h
  | cons b rest ih =>
    intro h
    unfold conflictInner at h
    rcases Decidable.em (a.state = "LANDED" ∨ b.state = "LANDED") with hl | hl
    · rw [if_pos hl] at h
      obtain ⟨c, hc, rest_eq⟩ := ih h
      exact ⟨c, List.mem_cons_of_mem _ hc, rest_eq⟩
    · rw [if_neg hl] at h
      rcases Decidable.em (a.distance_nm b < (SAFE_LAT_NM : ℝ) ∧
          a.vert_sep b < (SAFE_VERT_FT : ℝ)) with hc | hc
      · rw [if_pos hc] at h
        rcases List.mem_cons.1 h with heq | htl
        · push_neg at hl
          exact ⟨b, List.mem_cons_self _ _, heq, hl.1, hl.2, hc.1, hc.2⟩
        · obtain ⟨c, hcm, rest_eq⟩ := ih htl
          exact ⟨c, List.mem_cons_of_mem _ hcm, rest_eq⟩
      · rw [if_neg hc] at h
        obtain ⟨c, hcm, rest_eq⟩ := ih h
        exact ⟨c, List.mem_cons_of_mem _ hcm, rest_eq⟩

/-- Completeness of the inner pairing loop of `check_conflicts`. -/
theorem conflictInner_complete {a b : Aircraft}
    (ha : a.state ≠ "LANDED") (hb : b.state ≠ "LANDED")
    (hlat : a.distance_nm b < (SAFE_LAT_NM : ℝ))
    (hvert : a.vert_sep b < (SAFE_VERT_FT : ℝ)) :
    ∀ {rest : List Aircraft}, b ∈ rest →
      (a, b, a.distance_nm b, a.vert_sep b) ∈ conflictInner a rest := by
  intro rest
  induction rest with
  | nil => intro h; cases h
  | cons c rest ih =>
    intro h
    unfold conflictInner
    rcases List.mem_cons.1 h with heq | htl
    · subst heq
      rw [if_neg (by push_neg; exact ⟨ha, hb⟩), if_pos ⟨hlat, hvert⟩]
      exact List.mem_cons_self _ _
    · rcases Decidable.em (a.state = "LANDED" ∨ c.state = "LANDED") with hl | hl
      · rw [if_pos hl]
        exact ih htl
      · rw [if_neg hl]
        rcases Decidable.em (a.distance_nm c < (SAFE_LAT_NM : ℝ) ∧
            a.vert_sep c < (SAFE_VERT_FT : ℝ)) with hc | hc
        · rw [if_pos hc]
          exact List.mem_cons_of_mem _ (ih htl)
        · rw [if_neg hc]
          exact ih htl

/-- C2: `check_conflicts` reports a pair exactly when neither member is
LANDED and both the lateral distance is strictly below the 3 nm lateral
threshold and the vertical separation is strictly below the 1000 ft
vertical threshold; both separation measures are symmetric in the pair
order, so swapping the two aircraft in the input yields the same
conflicting pairs (with members swapped). -/
theorem C2_check_conflicts_characterization :
    ((SAFE_LAT_NM : ℝ) = 3 ∧ (SAFE_VERT_FT : ℝ) = 1000) ∧
    (∀ (planes : List Aircraft) (a b : Aircraft) (l v : ℝ),
       (a, b, l, v) ∈ check_conflicts planes →
       a.state ≠ "LANDED" ∧ b.state ≠ "LANDED" ∧
       a.distance_nm b < 3 ∧ a.vert_sep b < 1000 ∧
       l = a.distance_nm b ∧ v = a.vert_sep b) ∧
    (∀ (planes : List Aircraft) (i j : Nat) (a b : Aircraft), i < j →
       planes.get? i = some a → planes.get? j = some b →
       a.state ≠ "LANDED" → b.state ≠ "LANDED" →
       a.distance_nm b < 3 → a.vert_sep b < 1000 →
       (a, b, a.distance_nm b, a.vert_sep b) ∈ check_conflicts planes) ∧
    (∀ a b : Aircraft, a.distance_nm b = b.distance_nm a ∧
       a.vert_sep b = b.vert_sep a) := by
  have hlat3 : (SAFE_LAT_NM : ℝ) = 3 := by norm_num [SAFE_LAT_NM]
  have hvert1000 : (SAFE_VERT_FT : ℝ) = 1000 := by norm_num [SAFE_VERT_FT]
  refine ⟨⟨hlat3, hvert1000⟩, ?_, ?_, ?_⟩
  · intro planes
    induction planes with
    | nil => intro a b l v h; simp [check_conflicts] at h
    | cons p rest ih =>
      intro a b l v h
      unfold check_conflicts at h
      rcases List.mem_append.1 h with hin | hrec
      · obtain ⟨c, _, heq, ha, hc, hcl, hcv⟩ := conflictInner_sound hin
        simp only [Prod.mk.injEq] at heq
        rcases heq with ⟨rfl, rfl, rfl, rfl⟩
        exact ⟨ha, hc, hlat3 ▸ hcl, hvert1000 ▸ hcv, rfl, rfl⟩
      · exact ih a b l v hrec
  · intro planes
    induction planes with
    | nil => intro i j a b _ hia; simp at hia
    | cons p rest ih =>
      intro i j a b hij hia hjb ha hb hlat hvert
      unfold check_conflicts
      apply List.mem_append.2
      cases i with
      | zero =>
        cases j with
        | zero => exact absurd hij (by simp)
        | succ j =>
          simp only [List.get?] at hia hjb
          cases hia
          left
          have hbm : b ∈ rest := List.get?_mem hjb
          exact conflictInner_complete ha hb (hlat3 ▸ hlat) (hvert1000 ▸ hvert) hbm
      | succ i =>
        cases j with
        | zero => exact absurd hij (by omega)
        | succ j =>
          simp only [List.get?] at hia hjb
          right
          exact ih i j a b (by omega) hia hjb ha hb hlat hvert
  · intro a b
    constructor
    · unfold Aircraft.distance_nm
      congr 1
      congr 1
      ring
    · unfold Aircraft.vert_sep
      exact abs_sub_comm _ _

/-- C2 witness: the spec scenario — two aircraft 1 nm apart laterally and
500 ft apart vertically are reported as a conflict. -/
theorem C2_witness :
    ((0 : Nat) < 1) ∧
    (Aircraft.distance_nm { callsign := "A", x := 0, y := 0, alt := 0 }
        { callsign := "B", x := 0, y := 12.5, alt := 500 } < 3) ∧
    (Aircraft.vert_sep { callsign := "A", x := 0, y := 0, alt := 0 }
        { callsign := "B", x := 0, y := 12.5, alt := 500 } < 1000) ∧
    ((({ callsign := "A", x := 0, y := 0, alt := 0 } : Aircraft),
      ({ callsign := "B", x := 0, y := 12.5, alt := 500 } : Aircraft),
      Aircraft.distance_nm { callsign := "A", x := 0, y := 0, alt := 0 }
        { callsign := "B", x := 0, y := 12.5, alt := 500 },
      Aircraft.vert_sep { callsign := "A", x := 0, y := 0, alt := 0 }
        { callsign := "B", x := 0, y := 12.5, alt := 500 }) ∈
      check_conflicts [{ callsign := "A", x := 0, y := 0, alt := 0 },
                       { callsign := "B", x := 0, y := 12.5, alt := 500 }]) := by
  have hdist : Aircraft.distance_nm { callsign := "A", x := 0, y := 0, alt := 0 }
      { callsign := "B", x := 0, y := 12.5, alt := 500 } = 1 := by
    unfold Aircraft.distance_nm px_to_nm
    have h1 : ((0 : ℝ) - 0) * (0 - 0) + ((0 : ℝ) - 12.5) * (0 - 12.5) = 12.5 ^ 2 := by
      norm_num
    rw [show (({ callsign := "A", x := 0, y := 0, alt := 0 } : Aircraft).x -
        ({ callsign := "B", x := 0, y := 12.5, alt := 500 } : Aircraft).x) *
        (({ callsign := "A", x := 0, y := 0, alt := 0 } : Aircraft).x -
        ({ callsign := "B", x := 0, y := 12.5, alt := 500 } : Aircraft).x) +
        (({ callsign := "A", x := 0, y := 0, alt := 0 } : Aircraft).y -
        ({ callsign := "B", x := 0, y := 12.5, alt := 500 } : Aircraft).y) *
        (({ callsign := "A", x := 0, y := 0, alt := 0 } : Aircraft).y -
        ({ callsign := "B", x := 0, y := 12.5, alt := 500 } : Aircraft).y) = 12.5 ^ 2
      from h1]
    rw [Real.sqrt_sq (by norm_num : (0 : ℝ) ≤ 12.5)]
    norm_num [NM_PER_PX]
  have hvert : Aircraft.vert_sep { callsign := "A", x := 0, y := 0, alt := 0 }
      { callsign := "B", x := 0, y := 12.5, alt := 500 } = 500 := by
    unfold Aircraft.vert_sep
    rw [show (({ callsign := "A", x := 0, y := 0, alt := 0 } : Aircraft).alt -
        ({ callsign := "B", x := 0, y := 12.5, alt := 500 } : Aircraft).alt) =
        (-500 : ℝ) by norm_num]
    rw [abs_neg, abs_of_nonneg (by norm_num : (0 : ℝ) ≤ 500)]
  refine ⟨by norm_num, by rw [hdist]; norm_num, by rw [hvert]; norm_num, ?_⟩
  exact C2_check_conflicts_characterization.2.2.1
    [{ callsign := "A", x := 0, y := 0, alt := 0 },
     { callsign := "B", x := 0, y := 12.5, alt := 500 }] 0 1 _ _
    (by norm_num) rfl rfl (by decide) (by decide)
    (by rw [hdist]; norm_num) (by rw [hvert]; norm_num)

/-- Evaluation rule for `pymod` by exhibiting the right multiple. -/
theorem pymod_eq_sub_int_mul (x : ℝ) {n : ℝ} (hn : 0 < n) (k : ℤ)
    (hlo : 0 ≤ x - n * k) (hhi : x - n * k < n) : pymod x n = x - n * k := by
  have h2 := pymod_add_int_mul (x - n * (k : ℝ)) hn.ne' k
  rw [show x - n * (k : ℝ) + n * (k : ℝ) = x by ring] at h2
  rw [h2, pymod_eq_self hlo hhi]

/-- C8 counterexample: at current heading 170 the deconfliction branch
enqueues HDG 020 (because of the modulo-180 reduction), whose circular
difference from 170 is 150 degrees, not the fixed 30-degree turn
magnitude claimed. -/
theorem C8_deconfliction_turn_counterexample :
    aiDecideQueue { callsign := "EZY1", hdg := 170, ai_controlled := true }
        [{ callsign := "BAW2" }] [] true [] "DPA" =
      [⟨"HDG", some "020", none⟩] ∧
    circDist 20 170 = 150 ∧ AI_DECONFLICT_TURN = 30 ∧ (150 : ℝ) ≠ 30 := by
  have hpm : pymod ((170 : ℝ) + 30 * 1) 180 = 20 := by
    rw [pymod_eq_sub_int_mul _ (by norm_num) 1 (by norm_num) (by norm_num)]
    norm_num
  have hdec : deconflictHdg (170 : ℝ) (30 * 1) = 20 := by
    unfold deconflictHdg pyTrunc
    rw [hpm]
    rw [show (20 : ℝ) = ((20 : ℤ) : ℝ) by norm_num, Int.floor_intCast]
  refine ⟨?_, ?_, rfl, by norm_num⟩
  · unfold aiDecideQueue
    rw [if_pos (by decide)]
    simp only [AI_DECONFLICT_TURN, if_pos]
    rw [hdec]
    rfl
  · unfold circDist
    rw [show (20 : ℝ) - 170 = -150 by norm_num, show (170 : ℝ) - 20 = 150 by norm_num]
    rw [pymod_eq_sub_int_mul (-150) (by norm_num) (-1) (by norm_num) (by norm_num),
        pymod_eq_sub_int_mul 150 (by norm_num) 0 (by norm_num) (by norm_num)]
    norm_num

/-- The circular displacement actually produced by the deconfliction
heading: for an integer current heading in [0, 360), the modulo-180
reduced turn lands either the fixed magnitude away or 180 minus the fixed
magnitude away. -/
theorem deconflict_circDist_cases (h : ℤ) (h0 : 0 ≤ h) (h1 : h < 360) (sign : Bool) :
    circDist ((deconflictHdg ((h : ℤ) : ℝ)
        (AI_DECONFLICT_TURN * (if sign then 1 else -1)) : ℤ) : ℝ) ((h : ℤ) : ℝ) =
      AI_DECONFLICT_TURN ∨
    circDist ((deconflictHdg ((h : ℤ) : ℝ)
        (AI_DECONFLICT_TURN * (if sign then 1 else -1)) : ℤ) : ℝ) ((h : ℤ) : ℝ) =
      180 - AI_DECONFLICT_TURN := by
  have hr0 : ((h : ℤ) : ℝ) < 360 := by exact_mod_cast h1
  have hr1 : (0 : ℝ) ≤ ((h : ℤ) : ℝ) := by exact_mod_cast h0
  have key : ∀ t k : ℤ, (0 : ℝ) ≤ (h : ℝ) + t - 180 * k → (h : ℝ) + t - 180 * k < 180 →
      (deconflictHdg ((h : ℤ) : ℝ) ((t : ℤ) : ℝ) : ℝ) = (h : ℝ) + t - 180 * k := by
    intro t k hlo hhi
    unfold deconflictHdg pyTrunc
    rw [pymod_eq_sub_int_mul _ (by norm_num) k hlo hhi]
    rw [show (h : ℝ) + (t : ℝ) - 180 * (k : ℝ) = ((h + t - 180 * k : ℤ) : ℝ) by
      push_cast; ring, Int.floor_intCast]
  have ev : ∀ d e : ℝ, ∀ c : ℝ, d - e = c →
      circDist d e = min (pymod c 360) (pymod (-c) 360) := by
    intro d e c hc
    unfold circDist
    rw [hc, show e - d = -c by linarith]
  cases sign with
  | true =>
    have ht : AI_DECONFLICT_TURN * (if true then (1 : ℝ) else -1) = ((30 : ℤ) : ℝ) := by
      simp [AI_DECONFLICT_TURN]
    rw [ht]
    rcases lt_or_le ((h : ℝ) + 30) 180 with hA | hA
    · left
      rw [key 30 0 (by push_cast; linarith) (by push_cast; linarith)]
      rw [ev _ _ 30 (by push_cast; ring)]
      rw [pymod_eq_sub_int_mul 30 (by norm_num) 0 (by norm_num) (by norm_num),
          pymod_eq_sub_int_mul (-30) (by norm_num) (-1) (by norm_num) (by norm_num)]
      norm_num [AI_DECONFLICT_TURN, min_def]
    · rcases lt_or_le ((h : ℝ) + 30) 360 with hB | hB
      · right
        rw [key 30 1 (by push_cast; linarith) (by push_cast; linarith)]
        rw [ev _ _ (-150) (by push_cast; ring)]
        rw [pymod_eq_sub_int_mul (-150) (by norm_num) (-1) (by norm_num) (by norm_num),
            pymod_eq_sub_int_mul (-(-150)) (by norm_num) 0 (by norm_num) (by norm_num)]
        norm_num [AI_DECONFLICT_TURN, min_def]
      · left
        rw [key 30 2 (by push_cast; linarith) (by push_cast; linarith)]
        rw [ev _ _ (-330) (by push_cast; ring)]
        rw [pymod_eq_sub_int_mul (-330) (by norm_num) (-1) (by norm_num) (by norm_num),
            pymod_eq_sub_int_mul (-(-330)) (by norm_num) 0 (by norm_num) (by norm_num)]
        norm_num [AI_DECONFLICT_TURN, min_def]
  | false =>
    have ht : AI_DECONFLICT_TURN * (if false then (1 : ℝ) else -1) = ((-30 : ℤ) : ℝ) := by
      norm_num [AI_DECONFLICT_TURN, min_def]
    rw [ht]
    rcases lt_or_le ((h : ℝ) + -30) 0 with hA | hA
    · right
      rw [key (-30) (-1) (by push_cast; linarith) (by push_cast; linarith)]
      rw [ev _ _ 150 (by push_cast; ring)]
      rw [pymod_eq_sub_int_mul 150 (by norm_num) 0 (by norm_num) (by norm_num),
          pymod_eq_sub_int_mul (-150) (by norm_num) (-1) (by norm_num) (by norm_num)]
      norm_num [AI_DECONFLICT_TURN, min_def]
    · rcases lt_or_le ((h : ℝ) + -30) 180 with hB | hB
      · left
        rw [key (-30) 0 (by push_cast; linarith) (by push_cast; linarith)]
        rw [ev _ _ (-30) (by push_cast; ring)]
        rw [pymod_eq_sub_int_mul (-30) (by norm_num) (-1) (by norm_num) (by norm_num),
            pymod_eq_sub_int_mul (-(-30)) (by norm_num) 0 (by norm_num) (by norm_num)]
        norm_num [AI_DECONFLICT_TURN, min_def]
      · right
        rw [key (-30) 1 (by push_cast; linarith) (by push_cast; linarith)]
        rw [ev _ _ (-210) (by push_cast; ring)]
        rw [pymod_eq_sub_int_mul (-210) (by norm_num) (-1) (by norm_num) (by norm_num),
            pymod_eq_sub_int_mul (-(-210)) (by norm_num) 0 (by norm_num) (by norm_num)]
        norm_num [AI_DECONFLICT_TURN, min_def]

/-- C8 (amended): with nearby traffic present the decision enqueues
exactly one HDG command and nothing else, but its target heading is
`int((hdg + turn) % 180)`, so (for an integer current heading in
[0, 360)) the circular difference from the current heading is either
exactly the fixed deconfliction magnitude or 180 degrees minus it — not
always the magnitude itself. -/
theorem C8_deconfliction_single_hdg_mod180
    (ac : Aircraft) (nearby : List Aircraft) (runways : List Runway)
    (sign : Bool) (fixNames : List String) (pick : String)
    (hne : nearby ≠ []) :
    (aiDecideQueue ac nearby runways sign fixNames pick =
      [⟨"HDG", some (pad3 (deconflictHdg ac.hdg
          (AI_DECONFLICT_TURN * (if sign then 1 else -1)))), none⟩]) ∧
    (∀ h : ℤ, ac.hdg = ((h : ℤ) : ℝ) → 0 ≤ h → h < 360 →
      circDist ((deconflictHdg ac.hdg
          (AI_DECONFLICT_TURN * (if sign then 1 else -1)) : ℤ) : ℝ) ac.hdg =
        AI_DECONFLICT_TURN ∨
      circDist ((deconflictHdg ac.hdg
          (AI_DECONFLICT_TURN * (if sign then 1 else -1)) : ℤ) : ℝ) ac.hdg =
        180 - AI_DECONFLICT_TURN) := by
  constructor
  · unfold aiDecideQueue
    rw [if_pos ?_]
    · cases nearby with
      | nil => exact absurd rfl hne
      | cons x xs => rfl
  · intro h hh h0 h1
    rw [hh]
    exact deconflict_circDist_cases h h0 h1 sign

/-- C8 witness: the amended claim at a concrete decision. -/
theorem C8_witness :
    ([({ callsign := "BAW2" } : Aircraft)] ≠ []) ∧
    (aiDecideQueue { callsign := "EZY1", hdg := 40, ai_controlled := true }
        [{ callsign := "BAW2" }] [] true [] "DPA" =
      [⟨"HDG", some (pad3 (deconflictHdg
          ({ callsign := "EZY1", hdg := 40, ai_controlled := true } : Aircraft).hdg
          (AI_DECONFLICT_TURN * (if true then 1 else -1)))), none⟩]) ∧
    (circDist ((deconflictHdg
          ({ callsign := "EZY1", hdg := 40, ai_controlled := true } : Aircraft).hdg
          (AI_DECONFLICT_TURN * (if true then 1 else -1)) : ℤ) : ℝ)
        ({ callsign := "EZY1", hdg := 40, ai_controlled := true } : Aircraft).hdg =
        AI_DECONFLICT_TURN ∨
     circDist ((deconflictHdg
          ({ callsign := "EZY1", hdg := 40, ai_controlled := true } : Aircraft).hdg
          (AI_DECONFLICT_TURN * (if true then 1 else -1)) : ℤ) : ℝ)
        ({ callsign := "EZY1", hdg := 40, ai_controlled := true } : Aircraft).hdg =
        180 - AI_DECONFLICT_TURN) := by
  have h := C8_deconfliction_single_hdg_mod180
    { callsign := "EZY1", hdg := 40, ai_controlled := true }
    [{ callsign := "BAW2" }] [] true [] "DPA" (by simp)
  exact ⟨by simp, h.1, h.2 40 (by norm_num) (by norm_num) (by norm_num)⟩

/-- C3: the takeoff-release path of `Aircraft.update` performs no
identity check.  A concrete aircraft EZY9 in state TAKEOFF above the
release altitude, whose `current_runway` points at a runway actually held
by BAW7, releases that runway on update: the holder reference BAW7 is
cleared by an aircraft that does not hold the runway (the landing-rollout
path, by contrast, checks `active_aircraft == self` before releasing). -/
theorem C3_takeoff_release_without_identity_check :
    (([({ name := "RWY1", active_aircraft := some "BAW7",
          status := RUNWAY_OCCUPIED_STATUS, last_used := 0 } : Runway)].get? 0).map
        (fun r => r.active_aircraft) = some (some "BAW7")) ∧
    ("BAW7" : String) ≠ "EZY9" ∧
    (((Aircraft.update
        { callsign := "EZY9", state := "TAKEOFF", current_runway := some 0,
          alt := 1500, dest_alt := 1500, spd := 0, hdg := 0 }
        1 100 1 []
        [{ name := "RWY1", active_aircraft := some "BAW7",
           status := RUNWAY_OCCUPIED_STATUS, last_used := 0 }] []).2.1.get? 0).map
        (fun r => r.active_aircraft) = some none) ∧
    ((Aircraft.update
        { callsign := "EZY9", state := "TAKEOFF", current_runway := some 0,
          alt := 1500, dest_alt := 1500, spd := 0, hdg := 0 }
        1 100 1 []
        [{ name := "RWY1", active_aircraft := some "BAW7",
           status := RUNWAY_OCCUPIED_STATUS, last_used := 0 }] []).1.state = "AIRBORNE") := by
  set A : Aircraft :=
    { callsign := "EZY9", state := "TAKEOFF", current_runway := some 0,
      alt := 1500, dest_alt := 1500, spd := 0, hdg := 0 } with hA
  set R : Runway :=
    { name := "RWY1", active_aircraft := some "BAW7",
      status := RUNWAY_OCCUPIED_STATUS, last_used := 0 } with hR
  have hcmd : updCommands A [] [R] 1 100 1 = ((A, [R]), false) := rfl
  have halt : updAltitude A 1 100 = A := by
    unfold updAltitude
    rw [hA]
    rw [if_neg (by push_cast; norm_num), if_neg (by push_cast; norm_num)]
  have hspd : updSpeed A 1 = A := rfl
  have hdecel : updDecel A 1 = A := by
    unfold updDecel
    rw [if_neg ?_]
    rintro ⟨h1 | h1, -⟩ <;> rw [hA] at h1 <;> simp at h1
  have hposState : (updPosition A 1).state = "TAKEOFF" := rfl
  have hposAlt : (updPosition A 1).alt = 1500 := rfl
  have hposCs : (updPosition A 1).callsign = "EZY9" := rfl
  have hposRw : (updPosition A 1).current_runway = some 0 := rfl
  have hrun : updRunway (updPosition A 1) [R] [] 100 =
      ({ updPosition A 1 with current_runway := none, state := "AIRBORNE" },
       [R.release 100], []) := by
    unfold updRunway
    rw [hposRw]
    simp only []
    rw [if_pos hposState, if_pos (Or.inl (by
      rw [hposAlt]
      norm_num [TAKEOFF_RELEASE_ALT_FT]))]
    rfl
  have hupd : A.update 1 100 1 [] [R] [] =
      ({ updPosition A 1 with current_runway := none, state := "AIRBORNE" },
       [R.release 100], []) := by
    calc A.update 1 100 1 [] [R] [] =
        updRunway (updPosition (updDecel (updSpeed
          (match (updAltitude A 1 100).dest_hdg with
            | some t => (updAltitude A 1 100).turn_towards t 1
            | none => updAltitude A 1 100) 1) 1) 1) [R] [] 100 := rfl
      _ = updRunway (updPosition (updDecel (updSpeed
          (match A.dest_hdg with
            | some t => A.turn_towards t 1
            | none => A) 1) 1) 1) [R] [] 100 := by rw [halt]
      _ = updRunway (updPosition (updDecel A 1) 1) [R] [] 100 := rfl
      _ = updRunway (updPosition A 1) [R] [] 100 := by rw [hdecel]
      _ = ({ updPosition A 1 with current_runway := none, state := "AIRBORNE" },
           [R.release 100], []) := hrun
  rw [hupd]
  refine ⟨rfl, by decide, rfl, rfl⟩

/-- C5 (amended): one tick runs its phases in the fixed order coded in
`main.py`: (1) the AI decision pass — when enabled — over the pre-update
planes, (2) the per-aircraft updates, each executing at most one queued
command (the queue after an update is the old queue or its tail), then
(3) conflict detection over the updated planes.  The spatial index is not
rebuilt after the updates: it is built inside the AI pass, from the
positions the planes had at the start of the tick, so every entry it
serves to the tick's queries is the pre-update position of some plane. -/
theorem C5_tick_order_with_preupdate_index (env : TickEnv) (s : SimState)
    (a : Aircraft) (planes : List Aircraft) (q : ℝ × ℝ × Aircraft)
    (hq : q ∈ (buildQt planes).toList) :
    ((tick env s).planes =
      (updatePlanes env
        (if s.ai_enabled then
          aiUpdate s.planes s.runways env.now env.aiSign env.aiPick env.fixNames
         else s.planes) s.runways s.arrivals).1) ∧
    ((tick env s).conflicts = check_conflicts ((tick env s).planes)) ∧
    ((a.update env.dt env.now (env.delayDraw a.callsign) env.fixes s.runways
        s.arrivals).1.command_queue = a.command_queue ∨
     (a.update env.dt env.now (env.delayDraw a.callsign) env.fixes s.runways
        s.arrivals).1.command_queue = a.command_queue.tail) ∧
    (∃ p ∈ planes, q = (p.x, p.y, p)) := by
  refine ⟨rfl, rfl, ?_, ?_⟩
  · exact update_queue_pops_at_most_one a env.dt env.now (env.delayDraw a.callsign)
      env.fixes s.runways s.arrivals
  · exact mem_buildQt planes q hq

/-- C5 witness: the theorem applied to a one-plane index. -/
theorem C5_witness :
    ∃ p ∈ [({ callsign := "EZY1", x := 100, y := 300, hdg := 90, spd := 3600 } : Aircraft)],
      (((100 : ℝ), (300 : ℝ),
        ({ callsign := "EZY1", x := 100, y := 300, hdg := 90, spd := 3600 } : Aircraft)) :
          ℝ × ℝ × Aircraft) = (p.x, p.y, p) := by
  have hq : (((100 : ℝ), (300 : ℝ),
      ({ callsign := "EZY1", x := 100, y := 300, hdg := 90, spd := 3600 } : Aircraft)) :
        ℝ × ℝ × Aircraft) ∈
      (buildQt [{ callsign := "EZY1", x := 100, y := 300, hdg := 90, spd := 3600 }]).toList := by
    rw [buildQt_singleton _ (by norm_num) (by norm_num [WIDTH]) (by norm_num)
        (by norm_num [HEIGHT])]
    simp [Quadtree.toList]
  exact (C5_tick_order_with_preupdate_index
    ⟨1, 0, fun _ => 0, fun _ => true, fun _ => "", [], []⟩
    { planes := [], runways := [], arrivals := [], conflicts := [], ai_enabled := false }
    { callsign := "BAW1" } _ _ hq).2.2.2

/-- C5 counterexample to the spec's rebuild placement: with the AI pass
enabled, the index available to the tick's queries stores the plane at its
pre-update position (100, 300), while the same tick's per-aircraft update
moves the plane to (112.5, 300): no index rebuilt from the post-update
positions exists in the tick. -/
theorem C5_index_stale_counterexample :
    ((buildQt
        [{ callsign := "EZY1", x := 100, y := 300, hdg := 90, spd := 3600 }]).toList.map
        (fun q => (q.1, q.2.1)) = [(((100 : ℝ)), ((300 : ℝ)))]) ∧
    ((tick ⟨1, 0, fun _ => 0, fun _ => true, fun _ => "", [], []⟩
        { planes := [{ callsign := "EZY1", x := 100, y := 300, hdg := 90, spd := 3600 }],
          runways := [], arrivals := [], conflicts := [], ai_enabled := true }).planes.map
        (fun p => (p.x, p.y)) = [(((112.5 : ℝ)), ((300 : ℝ)))]) ∧
    ([(((100 : ℝ)), ((300 : ℝ)))] ≠ [(((112.5 : ℝ)), ((300 : ℝ)))]) := by
  set P : Aircraft :=
    { callsign := "EZY1", x := 100, y := 300, hdg := 90, spd := 3600 } with hP
  refine ⟨?_, ?_, ?_⟩
  · rw [buildQt_singleton P (by norm_num [hP]) (by norm_num [hP, WIDTH])
        (by norm_num [hP]) (by norm_num [hP, HEIGHT])]
    rfl
  · have hai : aiUpdate [P] [] 0 (fun _ => true) (fun _ => "") [] = [P] := by
      unfold aiUpdate
      rw [if_neg (by simp)]
      simp only [List.map]
      unfold aiStepPlane
      rw [if_pos (by simp [hP])]
    have halt : updAltitude P 1 0 = P := by
      unfold updAltitude
      rw [hP]
      rw [if_neg (by push_cast; norm_num), if_neg (by push_cast; norm_num)]
    have hdecel : updDecel P 1 = P := by
      unfold updDecel
      rw [if_neg ?_]
      rw [hP]
      simp
      exact ⟨by decide, by decide⟩
    have hupd : P.update 1 0 0 [] [] [] = (updPosition P 1, [], []) := by
      calc P.update 1 0 0 [] [] [] =
          updRunway (updPosition (updDecel (updSpeed
            (match (updAltitude P 1 0).dest_hdg with
              | some t => (updAltitude P 1 0).turn_towards t 1
              | none => updAltitude P 1 0) 1) 1) 1) [] [] 0 := rfl
        _ = updRunway (updPosition (updDecel (updSpeed
            (match P.dest_hdg with
              | some t => P.turn_towards t 1
              | none => P) 1) 1) 1) [] [] 0 := by rw [halt]
        _ = updRunway (updPosition (updDecel P 1) 1) [] [] 0 := rfl
        _ = updRunway (updPosition P 1) [] [] 0 := by rw [hdecel]
        _ = (updPosition P 1, [], []) := rfl
    have hx : (updPosition P 1).x = 112.5 := by
      show P.x + (heading_to_vec P.hdg).1 * nm_to_px (P.spd / 3600) * 1 = 112.5
      rw [hP]
      unfold heading_to_vec nm_to_px
      have h90 : (90 : ℝ) * Real.pi / 180 = Real.pi / 2 := by ring
      dsimp only
      rw [h90, Real.sin_pi_div_two]
      norm_num [NM_PER_PX]
    have hy : (updPosition P 1).y = 300 := by
      show P.y + (heading_to_vec P.hdg).2 * nm_to_px (P.spd / 3600) * 1 = 300
      rw [hP]
      unfold heading_to_vec nm_to_px
      have h90 : (90 : ℝ) * Real.pi / 180 = Real.pi / 2 := by ring
      dsimp only
      rw [h90, Real.cos_pi_div_two]
      norm_num
    show (tick _ _).planes.map (fun p => (p.x, p.y)) = _
    unfold tick
    dsimp only
    rw [if_pos rfl, hai]
    unfold updatePlanes
    dsimp only
    rw [hupd]
    unfold updatePlanes
    dsimp only
    simp only [List.map]
    rw [hx, hy]
  · simp only [ne_eq, List.cons.injEq, Prod.mk.injEq, and_true]
    norm_num

/-- C7: quadtree insert/query round-trip as claimed: an insert is
accepted exactly when the point lies in the node's box, and after a
sequence of in-box inserts into a wellformed tree every inserted point is
reported by a radius query centred on that exact point, for every radius
`r ≥ 0` — no point is lost by splitting, and the pruning never excludes
the subtree holding the query centre. -/
theorem C7_quadtree_insert_query_roundtrip {R : Type} [LinearOrderedField R] {α : Type}
    (cap fuel : Nat) (t : Quadtree R α) (px py : R) (obj : α)
    (ops : List (R × R × α)) (r : R)
    (hwf : Quadtree.WF cap fuel t) (hr : 0 ≤ r)
    (hops : ∀ p ∈ ops, Quadtree.inB t.bounds.1 t.bounds.2.1 t.bounds.2.2.1
      t.bounds.2.2.2 p.1 p.2.1) :
    ((Quadtree.insertAux cap fuel t px py obj).2 = true ↔
      Quadtree.inB t.bounds.1 t.bounds.2.1 t.bounds.2.2.1 t.bounds.2.2.2 px py) ∧
    (∀ p ∈ ops,
      p.2.2 ∈ Quadtree.query_radius (Quadtree.insertList cap fuel t ops) p.1 p.2.1 r) := by
  refine ⟨(Quadtree.insertAux_master cap fuel t px py obj).2.2.1 hwf, ?_⟩
  intro p hp
  obtain ⟨hwr, -, hins⟩ := Quadtree.insertList_stores cap fuel ops t hwf hops
  exact Quadtree.query_complete cap fuel _ p r [] hwr (hins p hp) hr

/-- C7 witness: capacity 1 and two inserts into a box of rationals, so
the second insert forces a split. -/
theorem C7_witness :
    ((Quadtree.insertAux 1 2 (Quadtree.leaf (0 : ℚ) 0 4 4 ([] : List (ℚ × ℚ × Nat)))
        1 1 7).2 = true ↔
      Quadtree.inB
        (Quadtree.leaf (0 : ℚ) 0 4 4 ([] : List (ℚ × ℚ × Nat))).bounds.1
        (Quadtree.leaf (0 : ℚ) 0 4 4 ([] : List (ℚ × ℚ × Nat))).bounds.2.1
        (Quadtree.leaf (0 : ℚ) 0 4 4 ([] : List (ℚ × ℚ × Nat))).bounds.2.2.1
        (Quadtree.leaf (0 : ℚ) 0 4 4 ([] : List (ℚ × ℚ × Nat))).bounds.2.2.2 1 1) ∧
    (∀ p ∈ [((1 : ℚ), (1 : ℚ), (7 : Nat)), ((3 : ℚ), (2 : ℚ), (9 : Nat))],
      p.2.2 ∈ Quadtree.query_radius
        (Quadtree.insertList 1 2 (Quadtree.leaf (0 : ℚ) 0 4 4 ([] : List (ℚ × ℚ × Nat)))
          [((1 : ℚ), (1 : ℚ), (7 : Nat)), ((3 : ℚ), (2 : ℚ), (9 : Nat))])
        p.1 p.2.1 1) := by
  refine C7_quadtree_insert_query_roundtrip 1 2 _ 1 1 7 _ 1 ?_ ?_ ?_
  · rw [Quadtree.WF_leaf_iff]
    exact ⟨by norm_num, by norm_num, by simp⟩
  · norm_num
  · intro p hp
    rcases List.mem_cons.1 hp with rfl | hp
    · refine ⟨?_, ?_, ?_, ?_⟩ <;> (simp only [Quadtree.bounds]; norm_num)
    rcases List.mem_cons.1 hp with rfl | hp
    · refine ⟨?_, ?_, ?_, ?_⟩ <;> (simp only [Quadtree.bounds]; norm_num)
    · exact absurd hp (List.not_mem_nil _)

end PyATC